import Mathlib

/-!
A shallow embedding of `src/Fusion360HubExporter.py` (the export traversal and
failure-isolation engine of the Fusion 360 hub exporter).

Strings are modelled as `List Char`.  External collaborators (the Fusion host:
document lifecycle, geometry encoders, the progress dialog) are modelled by an
environment `Env`: `Env.fails` decides which external call raises, and
`Env.cancel k` is the value the progress dialog's `wasCancelled` flag shows at
its `k`-th read.  The mutable instance attributes of the Python class
(`num_issues`, `was_cancelled`) together with the file system and an event
trace form the threaded state `S`.  Artifact writes, cancellation
observations, and document open/close attempts are recorded as trace events.
-/

namespace HubExporter

abbrev Name := List Char

/-! ## Character-level helpers and `_cleanup_name` -/

/-- The character class kept by the regex `[^a-zA-Z0-9 \n\.]` in
`_cleanup_name` (every other character is replaced by a space). -/
def allowedChar (c : Char) : Bool :=
  ('a' ≤ c && c ≤ 'z') || ('A' ≤ c && c ≤ 'Z') || ('0' ≤ c && c ≤ '9')
  || c == ' ' || c == '\n' || c == '.'

/-- One pass of the regex substitution in `_cleanup_name`. -/
def cleanChars (l : Name) : Name :=
  l.map (fun c => if allowedChar c then c else ' ')

/-- The ASCII whitespace characters removed by Python's `str.strip()`. -/
def isPySpace (c : Char) : Bool :=
  c == ' ' || c == '\t' || c == '\n' || c == '\r' || c == '\x0b' || c == '\x0c'

/-- Python's `str.strip()` on both ends. -/
def stripChars (l : Name) : Name :=
  ((l.dropWhile isPySpace).reverse.dropWhile isPySpace).reverse

def extStp : Name := ['.', 's', 't', 'p']
def extStl : Name := ['.', 's', 't', 'l']
def extIgs : Name := ['.', 'i', 'g', 's']
def extDxf : Name := ['.', 'd', 'x', 'f']
def extPng : Name := ['.', 'p', 'n', 'g']

/-- `name.endswith('.stp') or name.endswith('.stl') or name.endswith('.igs')`. -/
def reservedExt (l : Name) : Bool :=
  extStp.isSuffixOf l || extStl.isSuffixOf l || extIgs.isSuffixOf l

/-- `Fusion360HubExporter._cleanup_name`: regex substitution, strip, then the
reserved-extension underscore guard `name[0:-4] + "_" + name[-3:]`. -/
def cleanup_name (l : Name) : Name :=
  let n := stripChars (cleanChars l)
  if reservedExt n then
    n.take (n.length - 4) ++ '_' :: n.drop (n.length - 3)
  else n

/-! ## Project selection (`_export_data`, lines 136-141) -/

/-- The project filter exactly as coded in `_export_data`:
`if self.skip_projects and project.name in self.skip_projects: skip
 elif self.export_projects and project.name not in self.export_projects: skip
 else: export`. -/
def isProjectSelected (skiplist includelist : List Name) (n : Name) : Bool :=
  if !skiplist.isEmpty && skiplist.contains n then false
  else if !includelist.isEmpty && !(includelist.contains n) then false
  else true

/-- Modelled from the spec: the decision order stated in the specification
("if excludeList is non-empty, returns false iff project.name is in
excludeList; else if includeList is non-empty, returns true iff project.name
is in includeList; else returns true"), for comparison with the code's filter
in claim C4. -/
def isProjectSelectedSpec (skiplist includelist : List Name) (n : Name) : Bool :=
  if !skiplist.isEmpty then !(skiplist.contains n)
  else if !includelist.isEmpty then includelist.contains n
  else true

/-! ## Events, external calls, environment, configuration, state -/

inductive WriteKind : Type where
  | archive | screenshot | step | stl | iges | dxf | bodyStl
deriving DecidableEq

inductive Event : Type where
  /-- An external artifact-write call was issued (the encoder was invoked). -/
  | write (k : WriteKind) (path : Name)
  /-- A polling point read the cancellation flag as true. -/
  | cancelObserved
  /-- A document was successfully opened. -/
  | openDoc (file : Name)
  /-- `document.close(False)` was attempted. -/
  | closeDoc (file : Name)
deriving DecidableEq

/-- Identities of the individual external calls that can raise. -/
inductive ExtCall : Type where
  | openDoc (file : Name)
  | activateDoc (file : Name)
  | closeDoc (file : Name)
  | mkdirs (p : Name)
  | archiveEncode (p : Name)
  | screenshotSave (p : Name)
  | stepEncode (p : Name)
  | stlEncode (p : Name)
  | igesEncode (p : Name)
  | dxfEncode (p : Name)
  | bodyStlEncode (p : Name)

/-- The external world: which calls raise, and the successive values shown by
the progress dialog's `wasCancelled` flag (indexed by read count). -/
structure Env where
  fails : ExtCall → Bool
  cancel : Nat → Bool

/-- The configurable instance attributes of `Fusion360HubExporter`. -/
structure Config where
  skip_projects : List Name
  export_projects : List Name
  export_screenshot : Bool
  export_formats : List Name
  export_bodies : Bool
  export_sketches : Bool
  export_subcomponents : Bool
  max_subcomponent_count : Nat
  overwrite_existing : Bool

/-- Threaded run state: the exporter's mutable attributes, the file system
(set of existing paths), the dialog read counter, and the event trace. -/
structure S where
  num_issues : Nat
  was_cancelled : Bool
  pollCount : Nat
  fs : List Name
  trace : List Event
deriving DecidableEq

def S.init (fs : List Name) : S :=
  { num_issues := 0, was_cancelled := false, pollCount := 0, fs := fs, trace := [] }

def emit (e : Event) (s : S) : S := { s with trace := s.trace ++ [e] }

def addFs (p : Name) (s : S) : S := { s with fs := p :: s.fs }

def pathExists (s : S) (p : Name) : Bool := s.fs.contains p

def addIssue (s : S) : S := { s with num_issues := s.num_issues + 1 }

/-- One read of `progress_dialog.wasCancelled`. -/
def pollDialog (env : Env) (s : S) : Bool × S :=
  (env.cancel s.pollCount, { s with pollCount := s.pollCount + 1 })

/-- A polling point observed cancellation: set `was_cancelled` and record. -/
def markCancelled (s : S) : S :=
  emit Event.cancelObserved { s with was_cancelled := true }

/-! ## Paths -/

/-- `os.path.join` of two segments. -/
def joinPath (a b : Name) : Name := a ++ '/' :: b

/-- `os.path.join(base, *segments)`. -/
def joinAll (base : Name) (segs : List Name) : Name :=
  segs.foldl joinPath base

/-- The folder-chain path computed in `_export_design` by walking
`file.parentFolder` pointers up to the root (the chain is given root-first). -/
def buildFolderPath (chain : List Name) : Name :=
  match chain with
  | [] => []
  | c :: rest => rest.foldl (fun acc n => joinPath acc (cleanup_name n)) (cleanup_name c)

/-! ## The hierarchy supplied by the host

Components hold their occurrences through a mutually defined list type so
that the recursive exporter is structurally recursive (and hence evaluates
by kernel reduction on concrete inputs). -/

/-- A solid or mesh body.  `isEmpty` models degenerate geometry; the exporter
never reads it (only the external encoder's success depends on geometry). -/
structure BodyData where
  name : Name
  isEmpty : Bool

mutual
inductive Component : Type where
  | mk (name : Name) (sketches : List Name) (bRepBodies : List BodyData)
       (meshBodies : List BodyData) (occurrences : CompList)
inductive CompList : Type where
  | nil : CompList
  | cons : Component → CompList → CompList
end

def Component.name : Component → Name
  | .mk n _ _ _ _ => n

def Component.sketches : Component → List Name
  | .mk _ sk _ _ _ => sk

def Component.bRepBodies : Component → List BodyData
  | .mk _ _ bb _ _ => bb

def Component.meshBodies : Component → List BodyData
  | .mk _ _ _ mb _ => mb

def Component.occurrences : Component → CompList
  | .mk _ _ _ _ occs => occs

def CompList.length : CompList → Nat
  | .nil => 0
  | .cons _ rest => rest.length + 1

def CompList.toList : CompList → List Component
  | .nil => []
  | .cons c rest => c :: rest.toList

/-- A file in a project folder.  `folderChain` is the chain of folder names
from the project's root folder down to the file's immediate parent (standing
for the `parentFolder` pointers), and `rootComponent` is the root component
of the design obtained when the document is opened. -/
structure DataFile where
  name : Name
  fileExtension : Name
  folderChain : List Name
  rootComponent : Component

mutual
inductive Folder : Type where
  | mk (name : Name) (dataFiles : List DataFile) (dataFolders : FolderList)
inductive FolderList : Type where
  | nil : FolderList
  | cons : Folder → FolderList → FolderList
end

structure Project where
  name : Name
  rootFolder : Folder

structure Hub where
  name : Name
  dataProjects : List Project

structure AppData where
  activeHubName : Name
  hubs : List Hub

mutual
/-- `_get_files_for`: files of this folder, then files of subfolders,
depth-first.  (The try/except around the pure enumeration never fires in the
model, where the hierarchy is plain data.) -/
def getFilesFor : Folder → List DataFile
  | .mk _ fs subs => fs ++ getFilesForList subs
def getFilesForList : FolderList → List DataFile
  | .nil => []
  | .cons f rest => getFilesFor f ++ getFilesForList rest
end

/-! ## Per-artifact writers -/

def fmtStp : Name := ['s', 't', 'p']
def fmtStl : Name := ['s', 't', 'l']
def fmtIgs : Name := ['i', 'g', 's']

/-- `_create_path`: `os.makedirs(out_path, exist_ok=True)`.  Returns the
state and whether the call raised. -/
def create_path (env : Env) (p : Name) (s : S) : S × Bool :=
  if env.fails (.mkdirs p) then (s, true) else (addFs p s, false)

/-- `_write_step`.  Skips when overwrite is off and the output exists;
otherwise invokes the STEP encoder (which receives `output_path`, without the
extension, as in the source) and raises if the encoder raises. -/
def write_step (cfg : Config) (env : Env) (output_path : Name) (s : S) : S × Bool :=
  let file_path := output_path ++ extStp
  if !cfg.overwrite_existing && pathExists s file_path then (s, false)
  else
    let s1 := emit (.write .step file_path) s
    if env.fails (.stepEncode output_path) then (s1, true)
    else (addFs file_path s1, false)

/-- `_write_stl`.  Catches any encoder failure itself and increments the
issue counter only when the component has at least one occurrence or body. -/
def write_stl (cfg : Config) (env : Env) (output_path : Name) (c : Component) (s : S) :
    S × Bool :=
  let file_path := output_path ++ extStl
  if !cfg.overwrite_existing && pathExists s file_path then (s, false)
  else
    let s1 := emit (.write .stl file_path) s
    if env.fails (.stlEncode output_path) then
      if c.occurrences.length + c.bRepBodies.length + c.meshBodies.length > 0 then
        (addIssue s1, false)
      else (s1, false)
    else (addFs file_path s1, false)

/-- `_write_iges`: like `_write_step` (the encoder receives `file_path`). -/
def write_iges (cfg : Config) (env : Env) (output_path : Name) (s : S) : S × Bool :=
  let file_path := output_path ++ extIgs
  if !cfg.overwrite_existing && pathExists s file_path then (s, false)
  else
    let s1 := emit (.write .iges file_path) s
    if env.fails (.igesEncode file_path) then (s1, true)
    else (addFs file_path s1, false)

/-- `_write_dxf`: `sketch.saveAsDXF(file_path)`; raises on encoder failure. -/
def write_dxf (cfg : Config) (env : Env) (output_path : Name) (s : S) : S × Bool :=
  let file_path := output_path ++ extDxf
  if !cfg.overwrite_existing && pathExists s file_path then (s, false)
  else
    let s1 := emit (.write .dxf file_path) s
    if env.fails (.dxfEncode file_path) then (s1, true)
    else (addFs file_path s1, false)

/-- `_write_stl_body`: catches every encoder failure and swallows it
("Probably an empty model, ignore it"), regardless of the body. -/
def write_stl_body (cfg : Config) (env : Env) (output_path : Name) (_b : BodyData)
    (s : S) : S × Bool :=
  let file_path := output_path ++ extStl
  if !cfg.overwrite_existing && pathExists s file_path then (s, false)
  else
    let s1 := emit (.write .bodyStl file_path) s
    if env.fails (.bodyStlEncode file_path) then (s1, false)
    else (addFs file_path s1, false)

/-- The screenshot block of `_export_design` (failures are a warning only). -/
def write_screenshot (cfg : Config) (env : Env) (shot_path : Name) (s : S) : S :=
  if cfg.export_screenshot then
    if cfg.overwrite_existing || !pathExists s shot_path then
      let s1 := emit (.write .screenshot shot_path) s
      if env.fails (.screenshotSave shot_path) then s1
      else addFs shot_path s1
    else s
  else s

/-! ## `_write_component` -/

/-- The three per-format blocks of `_write_component`: each call is wrapped
in its own try/except whose handler only logs. -/
def formats_section (cfg : Config) (env : Env) (output_path : Name) (c : Component)
    (s : S) : S :=
  let s1 := if cfg.export_formats.contains fmtStp then (write_step cfg env output_path s).1 else s
  let s2 := if cfg.export_formats.contains fmtStl then (write_stl cfg env output_path c s1).1 else s1
  if cfg.export_formats.contains fmtIgs then (write_iges cfg env output_path s2).1 else s2

/-- The sketch block of `_write_component`: each sketch's DXF export is
wrapped in a try/except whose handler only logs; the sketch path joins the
raw (uncleaned) sketch name. -/
def sketches_section (cfg : Config) (env : Env) (output_path : Name)
    (sketches : List Name) (s : S) : S :=
  if cfg.export_sketches then
    sketches.foldl (fun acc skn => (write_dxf cfg env (joinPath output_path skn) acc).1) s
  else s

/-- One body loop of `_write_component`: polls the dialog before each body and
returns early (second result true) when cancellation is observed. -/
def bodies_loop (cfg : Config) (env : Env) (output_path : Name) :
    List BodyData → S → S × Bool
  | [], s => (s, false)
  | b :: rest, s =>
    let r := pollDialog env s
    if r.1 then (markCancelled r.2, true)
    else
      let s1 := (write_stl_body cfg env (joinPath output_path b.name) b r.2).1
      bodies_loop cfg env output_path rest s1

/-- The body block of `_write_component`.  Result: ((state, returned early
because of cancellation), raised).  `_create_path(output_path)` is only
called when there are solid bodies, and its exception is not caught here. -/
def bodies_section (cfg : Config) (env : Env) (output_path : Name)
    (bb mb : List BodyData) (s : S) : (S × Bool) × Bool :=
  if cfg.export_bodies then
    if bb.length > 0 then
      match create_path env output_path s with
      | (s1, true) => ((s1, false), true)
      | (s1, false) =>
        match bodies_loop cfg env output_path bb s1 with
        | (s2, true) => ((s2, true), false)
        | (s2, false) =>
          if mb.length > 0 then (bodies_loop cfg env output_path mb s2, false)
          else ((s2, false), false)
    else
      if mb.length > 0 then (bodies_loop cfg env output_path mb s, false)
      else ((s, false), false)
  else ((s, false), false)

mutual
/-- `_write_component`: poll the dialog, export own formats, sketches and
bodies, then recurse into occurrences unless their count exceeds
`max_subcomponent_count`.  The returned flag is true when an uncaught
exception propagates out (only the body block's `_create_path` can raise
past this function). -/
def write_component (cfg : Config) (env : Env) (component_base_path : Name)
    (c : Component) (s : S) : S × Bool :=
  let r := pollDialog env s
  if r.1 then (markCancelled r.2, false)
  else
    match c with
    | .mk nm sk bb mb occs =>
      let output_path := joinPath component_base_path (cleanup_name nm)
      let s1 := formats_section cfg env output_path (Component.mk nm sk bb mb occs) r.2
      let s2 := sketches_section cfg env output_path sk s1
      match bodies_section cfg env output_path bb mb s2 with
      | ((s3, _), true) => (s3, true)
      | ((s3, true), false) => (s3, false)
      | ((s3, false), false) =>
        if cfg.export_subcomponents then
          if CompList.length occs > cfg.max_subcomponent_count then (s3, false)
          else (occs_loop cfg env component_base_path (cleanup_name nm) occs s3, false)
        else (s3, false)

/-- The occurrence loop of `_write_component`: poll before each occurrence;
per-occurrence failures (`_create_path` or the recursive call raising) are
caught, logged, and do not stop the remaining occurrences. -/
def occs_loop (cfg : Config) (env : Env) (parent_base parent_clean : Name)
    (occs : CompList) (s : S) : S :=
  match occs with
  | .nil => s
  | .cons sub rest =>
    let r := pollDialog env s
    if r.1 then markCancelled r.2
    else
      let s1 :=
        match create_path env (joinPath parent_base parent_clean) r.2 with
        | (sa, true) => sa
        | (sa, false) => (write_component cfg env (joinPath parent_base parent_clean) sub sa).1
      occs_loop cfg env parent_base parent_clean rest s1
end

/-! ## `_export_design` and the walk (`_export_data`) -/

def extF3dName : Name := ['f', '3', 'd']
def extF3zName : Name := ['f', '3', 'z']
def hubSegHead : Name := ['H', 'u', 'b', ' ']
def projSegHead : Name := ['P', 'r', 'o', 'j', 'e', 'c', 't', ' ']

/-- The close attempt of `_export_design`: `document.close(False)` wrapped in
try/except whose handler increments the issue counter. -/
def close_attempt (env : Env) (n : Name) (s : S) : S :=
  let s1 := emit (.closeDoc n) s
  if env.fails (.closeDoc n) then addIssue s1 else s1

/-- The body of `_export_design` after a successful open (lines 225-289):
path construction and creation, the root-folder existence check, the
screenshot block, the document archive export, and the root component
export.  Exceptions are converted to issue increments exactly at the
handlers of the source. -/
def design_body (cfg : Config) (env : Env) (root hubName projName : Name)
    (file : DataFile) (s : S) : S :=
  let folder_path := buildFolderPath file.folderChain
  let full := joinAll root
    [hubSegHead ++ cleanup_name hubName,
     projSegHead ++ cleanup_name projName,
     folder_path,
     cleanup_name file.name ++ '.' :: file.fileExtension]
  match create_path env full s with
  | (s1, true) => addIssue s1
  | (s1, false) =>
    if !(pathExists s1 full) then addIssue s1
    else
      let file_export_path := joinPath full (cleanup_name file.name)
      let shot := joinPath full (cleanup_name file.name ++ extPng)
      let s2 := write_screenshot cfg env shot s1
      let s3 := emit (.write .archive file_export_path) s2
      if env.fails (.archiveEncode file_export_path) then addIssue s3
      else
        let s4 := addFs file_export_path s3
        match write_component cfg env full file.rootComponent s4 with
        | (s5, true) => addIssue s5
        | (s5, false) => s5

/-- `_export_design`: skip non-design files; open and activate the document
(on failure record an issue and attempt a close only if a handle was
obtained); otherwise run the body and always attempt the close. -/
def export_design (cfg : Config) (env : Env) (root hubName projName : Name)
    (file : DataFile) (s : S) : S :=
  if !(file.fileExtension == extF3dName || file.fileExtension == extF3zName) then s
  else if env.fails (.openDoc file.name) then addIssue s
  else
    let s1 := emit (.openDoc file.name) s
    if env.fails (.activateDoc file.name) then
      close_attempt env file.name (addIssue s1)
    else
      close_attempt env file.name (design_body cfg env root hubName projName file s1)

/-- The file loop of `_export_data`.  Each iteration first checks
`self.was_cancelled or self.progress_dialog.wasCancelled` (short-circuit: the
dialog is only read when `was_cancelled` is still false); on observation the
whole `_export_data` returns (flag true). -/
def files_loop (cfg : Config) (env : Env) (root hubName projName : Name) :
    List DataFile → S → S × Bool
  | [], s => (s, false)
  | f :: rest, s =>
    if s.was_cancelled then (markCancelled s, true)
    else
      let r := pollDialog env s
      if r.1 then (markCancelled r.2, true)
      else
        let s1 := export_design cfg env root hubName projName f r.2
        files_loop cfg env root hubName projName rest s1

/-- The project loop of `_export_data`: poll, apply the project filter, then
walk the project's flattened file list. -/
def projects_loop (cfg : Config) (env : Env) (root hubName : Name) :
    List Project → S → S × Bool
  | [], s => (s, false)
  | p :: rest, s =>
    if s.was_cancelled then (markCancelled s, true)
    else
      let r := pollDialog env s
      if r.1 then (markCancelled r.2, true)
      else
        if isProjectSelected cfg.skip_projects cfg.export_projects p.name then
          match files_loop cfg env root hubName p.name (getFilesFor p.rootFolder) r.2 with
          | (s2, true) => (s2, true)
          | (s2, false) => projects_loop cfg env root hubName rest s2
        else projects_loop cfg env root hubName rest r.2

/-- The hub loop of `_export_data`: only the active hub is exported; a
cancelled project walk returns from the whole function. -/
def hubs_loop (cfg : Config) (env : Env) (root active : Name) :
    List Hub → S → S
  | [], s => s
  | h :: rest, s =>
    if h.name == active then
      match projects_loop cfg env root h.name h.dataProjects s with
      | (s1, true) => s1
      | (s1, false) => hubs_loop cfg env root active rest s1
    else hubs_loop cfg env root active rest s

/-- `_export_data`. -/
def export_data (cfg : Config) (env : Env) (root : Name) (d : AppData) (s : S) : S :=
  hubs_loop cfg env root d.activeHubName d.hubs s

/-- The end-of-run outcome reported by `run` (cancellation dominates). -/
inductive Outcome : Type where
  | Success
  | PartialFailure (n : Nat)
  | Cancelled
deriving DecidableEq

def outcome (s : S) : Outcome :=
  if s.was_cancelled then .Cancelled
  else if s.num_issues > 0 then .PartialFailure s.num_issues
  else .Success

/-! ## Trace predicates for the cancellation claim -/

def Event.isWrite : Event → Bool
  | .write _ _ => true
  | _ => false

def Event.isCancel : Event → Bool
  | .cancelObserved => true
  | _ => false

def hasCancel (t : List Event) : Bool := t.any Event.isCancel

/-- Scan a trace: once a cancellation observation has been seen, any later
artifact write is a violation. -/
def nwacAux : Bool → List Event → Bool
  | _, [] => true
  | seen, e :: rest =>
    if e.isWrite && seen then false
    else nwacAux (seen || e.isCancel) rest

/-- No artifact write occurs after the first observed cancellation. -/
def noWriteAfterCancel (t : List Event) : Bool := nwacAux false t

/-! ## Environment assumptions used in claim statements -/

/-- The dialog never reports cancellation during the run. -/
def NoCancel (env : Env) : Prop := ∀ k, env.cancel k = false

/-- The user's cancellation flag is monotone: once the dialog reports
cancellation, every later read reports it too. -/
def MonoCancel (env : Env) : Prop :=
  ∀ i j, i ≤ j → env.cancel i = true → env.cancel j = true

/-- Only STEP-encoder and DXF-encoder calls fail; every other external call
succeeds. -/
def StepDxfOnly (env : Env) : Prop :=
  ∀ c, env.fails c = true →
    (∃ p, c = ExtCall.stepEncode p) ∨ (∃ p, c = ExtCall.dxfEncode p)

/-- Directory creation never fails. -/
def MkdirOk (env : Env) : Prop := ∀ p, env.fails (ExtCall.mkdirs p) = false

/-- `b`'s trace extends `a`'s trace: the walk only appends events. -/
def TraceExt (a b : S) : Prop := ∃ t, b.trace = a.trace ++ t

/-- The run-state invariant behind the cancellation claim: the trace has no
artifact write after an observed cancellation; an observed cancellation in
the trace means the (monotone) dialog flag reads true at the current poll
index; and the `was_cancelled` attribute is only set after an observation. -/
def Inv (env : Env) (s : S) : Prop :=
  noWriteAfterCancel s.trace = true ∧
  (hasCancel s.trace = true → env.cancel s.pollCount = true) ∧
  (s.was_cancelled = true → hasCancel s.trace = true)

/-! ## Concrete fixtures used by counterexamples and witnesses -/

/-- A configuration matching the source defaults (screenshot off to keep
fixtures small; bodies off as in the source default). -/
def cfgAll : Config :=
  { skip_projects := [], export_projects := [], export_screenshot := false,
    export_formats := [fmtStp, fmtStl, fmtIgs], export_bodies := false,
    export_sketches := true, export_subcomponents := true,
    max_subcomponent_count := 300, overwrite_existing := true }

def compA : Component := .mk ['A'] [['K']] [] [] .nil

def fileA : DataFile :=
  { name := ['F'], fileExtension := extF3dName, folderChain := [['R']],
    rootComponent := compA }

def hierA : AppData :=
  { activeHubName := ['H'],
    hubs := [{ name := ['H'],
               dataProjects := [{ name := ['P'],
                                  rootFolder := .mk ['R'] [fileA] .nil }] }] }

def rootO : Name := ['O']

/-- An environment in which every STEP encode and every DXF encode raises and
everything else succeeds.  On `hierA` (a single component with a single
sketch) this is a run with exactly one failed STEP export and exactly one
failed DXF export. -/
def envStepDxfFail : Env :=
  { fails := fun c => match c with
      | .stepEncode _ => true
      | .dxfEncode _ => true
      | _ => false,
    cancel := fun _ => false }

def envOk : Env := { fails := fun _ => false, cancel := fun _ => false }

def envCancelAlways : Env := { fails := fun _ => false, cancel := fun _ => true }

def cfgNoOverwrite : Config :=
  { cfgAll with overwrite_existing := false, export_screenshot := true }

def runFirst : S := export_data cfgNoOverwrite envOk rootO hierA (S.init [])

def runSecond : S := export_data cfgNoOverwrite envOk rootO hierA (S.init runFirst.fs)

def bodyNE : BodyData := { name := ['B'], isEmpty := false }

def envBodyFail : Env :=
  { fails := fun c => match c with | .bodyStlEncode _ => true | _ => false,
    cancel := fun _ => false }

def envStlFail : Env :=
  { fails := fun c => match c with | .stlEncode _ => true | _ => false,
    cancel := fun _ => false }

def compWithBody : Component := .mk ['A'] [] [bodyNE] [] .nil

def cfgMax1 : Config := { cfgAll with max_subcomponent_count := 1 }

def compChild : Component := .mk ['C'] [] [] [] .nil

def compChildB : Component := .mk ['D'] [] [] [] .nil

/-- A component with two immediate occurrences (over a ceiling of 1). -/
def compTwoSubs : Component :=
  .mk ['A'] [] [] [] (.cons compChild (.cons compChildB .nil))

/-- A component with exactly one immediate occurrence (at a ceiling of 1). -/
def compOneSub : Component := .mk ['A'] [] [] [] (.cons compChild .nil)

/-! # Theorems -/

/-! ## State-helper simp lemmas -/

@[simp] theorem num_issues_emit (e : Event) (s : S) :
    (emit e s).num_issues = s.num_issues := rfl

@[simp] theorem num_issues_addFs (p : Name) (s : S) :
    (addFs p s).num_issues = s.num_issues := rfl

@[simp] theorem num_issues_addIssue (s : S) :
    (addIssue s).num_issues = s.num_issues + 1 := rfl

@[simp] theorem trace_emit (e : Event) (s : S) :
    (emit e s).trace = s.trace ++ [e] := rfl

@[simp] theorem trace_addFs (p : Name) (s : S) : (addFs p s).trace = s.trace := rfl

@[simp] theorem trace_addIssue (s : S) : (addIssue s).trace = s.trace := rfl

@[simp] theorem was_cancelled_emit (e : Event) (s : S) :
    (emit e s).was_cancelled = s.was_cancelled := rfl

@[simp] theorem was_cancelled_addFs (p : Name) (s : S) :
    (addFs p s).was_cancelled = s.was_cancelled := rfl

@[simp] theorem was_cancelled_addIssue (s : S) :
    (addIssue s).was_cancelled = s.was_cancelled := rfl

@[simp] theorem pollCount_emit (e : Event) (s : S) :
    (emit e s).pollCount = s.pollCount := rfl

@[simp] theorem pollCount_addFs (p : Name) (s : S) :
    (addFs p s).pollCount = s.pollCount := rfl

@[simp] theorem pollCount_addIssue (s : S) :
    (addIssue s).pollCount = s.pollCount := rfl

@[simp] theorem fs_emit (e : Event) (s : S) : (emit e s).fs = s.fs := rfl

@[simp] theorem fs_addIssue (s : S) : (addIssue s).fs = s.fs := rfl

@[simp] theorem markCancelled_def (s : S) :
    markCancelled s = emit Event.cancelObserved { s with was_cancelled := true } := rfl

@[simp] theorem pollDialog_fst (env : Env) (s : S) :
    (pollDialog env s).1 = env.cancel s.pollCount := rfl

@[simp] theorem pollDialog_snd (env : Env) (s : S) :
    (pollDialog env s).2 = { s with pollCount := s.pollCount + 1 } := rfl

/-! ## Sanitizer lemmas -/

theorem allowed_of_mem_cleanChars {c : Char} {l : Name} (h : c ∈ cleanChars l) :
    allowedChar c = true := by
  unfold cleanChars at h
  rcases List.mem_map.1 h with ⟨x, _, hx⟩
  by_cases hA : allowedChar x = true
  · rw [if_pos hA] at hx; rw [← hx]; exact hA
  · rw [if_neg hA] at hx; rw [← hx]; decide

theorem mem_of_mem_stripChars {c : Char} {l : Name} (h : c ∈ stripChars l) : c ∈ l := by
  unfold stripChars at h
  have h1 := List.mem_reverse.1 h
  have h2 := (List.dropWhile_sublist _).subset h1
  have h3 := List.mem_reverse.1 h2
  exact (List.dropWhile_sublist _).subset h3

theorem stripChars_eq_rdropWhile (l : Name) :
    stripChars l = List.rdropWhile isPySpace (List.dropWhile isPySpace l) := rfl

theorem stripChars_idem (l : Name) : stripChars (stripChars l) = stripChars l := by
  rw [stripChars_eq_rdropWhile, stripChars_eq_rdropWhile]
  have h2 : List.dropWhile isPySpace
      (List.rdropWhile isPySpace (List.dropWhile isPySpace l))
      = List.rdropWhile isPySpace (List.dropWhile isPySpace l) := by
    cases hB : List.rdropWhile isPySpace (List.dropWhile isPySpace l) with
    | nil => simp
    | cons c t =>
      rw [List.dropWhile_cons]
      have hpre : List.rdropWhile isPySpace (List.dropWhile isPySpace l)
          <+: List.dropWhile isPySpace l := List.rdropWhile_prefix _ _
      rw [hB] at hpre
      have hAne : List.dropWhile isPySpace l ≠ [] := by
        intro hA
        rw [hA] at hpre
        exact List.cons_ne_nil c t (List.prefix_nil.1 hpre)
      have hh : (c :: t).head (List.cons_ne_nil c t)
          = (List.dropWhile isPySpace l).head hAne := List.IsPrefix.head hpre _
      have hfalse : isPySpace ((List.dropWhile isPySpace l).head hAne) = false :=
        List.head_dropWhile_not isPySpace l hAne
      have hc : isPySpace c = false := by
        have : (c :: t).head (List.cons_ne_nil c t) = c := rfl
        rw [← this, hh, hfalse]
      rw [hc]
      simp
  rw [h2, List.rdropWhile_idempotent]

/-- Every character surviving the regex-substitute-then-strip passes is in
the allowed class. -/
theorem allowed_of_mem_strip_clean {c : Char} {l : Name}
    (h : c ∈ stripChars (cleanChars l)) : allowedChar c = true :=
  allowed_of_mem_cleanChars (mem_of_mem_stripChars h)

theorem cleanup_name_eq (l : Name) :
    cleanup_name l =
      if reservedExt (stripChars (cleanChars l)) = true then
        (stripChars (cleanChars l)).take ((stripChars (cleanChars l)).length - 4)
          ++ '_' :: (stripChars (cleanChars l)).drop ((stripChars (cleanChars l)).length - 3)
      else stripChars (cleanChars l) := rfl

/-! ## Claim C4 (project selection) -/

/-- Claim C4: when the exclude list is non-empty the include list is supposed
to be ignored (as the source's own option comment also states), but the code
applies the include filter anyway.  With exclude `["A"]` and include `["B"]`,
project `"C"` is rejected by the code while the specified decision order
selects it. -/
theorem C4_code_eval :
    isProjectSelected [['A']] [['B']] ['C'] = false ∧
    isProjectSelectedSpec [['A']] [['B']] ['C'] = true := by decide

/-! ## Claims C6 and C7 (sanitizer) -/

/-- Claim C6 counterexample: sanitization is not idempotent on inputs that
trigger the reserved-extension underscore guard: `"a.stp"` sanitizes to
`"a_stp"`, which re-sanitizes to `"a stp"`. -/
theorem C6_counterexample :
    cleanup_name (cleanup_name ['a', '.', 's', 't', 'p'])
      ≠ cleanup_name ['a', '.', 's', 't', 'p'] := by decide

/-- Claim C6 (amended): sanitization is idempotent on every input whose
regex-substituted and stripped form does not trigger the reserved-extension
underscore guard. -/
theorem C6_amended (l : Name) (h : reservedExt (stripChars (cleanChars l)) = false) :
    cleanup_name (cleanup_name l) = cleanup_name l := by
  have hcl : cleanup_name l = stripChars (cleanChars l) := by
    rw [cleanup_name_eq, h]
    simp
  rw [hcl]
  have hallowed : ∀ c ∈ stripChars (cleanChars l), allowedChar c = true :=
    fun c hc => allowed_of_mem_strip_clean hc
  have hclean : cleanChars (stripChars (cleanChars l)) = stripChars (cleanChars l) := by
    have h1 : List.map (fun c => if allowedChar c = true then c else ' ')
        (stripChars (cleanChars l)) = List.map id (stripChars (cleanChars l)) :=
      List.map_congr_left (fun a ha => if_pos (hallowed a ha))
    calc cleanChars (stripChars (cleanChars l))
        = List.map id (stripChars (cleanChars l)) := h1
      _ = stripChars (cleanChars l) := List.map_id _
  rw [cleanup_name_eq, hclean, stripChars_idem, h]
  simp

theorem C6_witness :
    reservedExt (stripChars (cleanChars ['a', 'b'])) = false ∧
    cleanup_name (cleanup_name ['a', 'b']) = cleanup_name ['a', 'b'] :=
  ⟨by decide, C6_amended ['a', 'b'] (by decide)⟩

/-- Claim C7 counterexample: the reserved-extension guard inserts an
underscore, a character outside the stated set: sanitizing `"a.stp"` yields a
name containing `'_'`. -/
theorem C7_counterexample :
    '_' ∈ cleanup_name ['a', '.', 's', 't', 'p'] ∧ allowedChar '_' = false := by decide

/-- Claim C7 (amended): every character of a sanitized name is a letter, a
digit, a space, a newline or a period, except for the single underscore
inserted by the reserved-extension guard. -/
theorem C7_amended (l : Name) (c : Char) (hc : c ∈ cleanup_name l) :
    allowedChar c = true ∨ c = '_' := by
  rw [cleanup_name_eq] at hc
  by_cases hr : reservedExt (stripChars (cleanChars l)) = true
  · rw [if_pos hr] at hc
    rcases List.mem_append.1 hc with h1 | h2
    · exact Or.inl (allowed_of_mem_strip_clean (List.take_subset _ _ h1))
    · rcases List.mem_cons.1 h2 with h3 | h4
      · exact Or.inr h3
      · exact Or.inl (allowed_of_mem_strip_clean (List.drop_subset _ _ h4))
  · rw [if_neg hr] at hc
    exact Or.inl (allowed_of_mem_strip_clean hc)

theorem C7_witness :
    'a' ∈ cleanup_name ['a', 'b'] ∧ (allowedChar 'a' = true ∨ 'a' = '_') :=
  ⟨by decide, C7_amended ['a', 'b'] 'a' (by decide)⟩

/-! ## Claim C9 (body STL failures) -/

/-- Claim C9 counterexample: the STL encoder fails on a non-empty body and no
issue is recorded — `_write_stl_body` swallows every failure, not only
failures on empty/degenerate bodies. -/
theorem C9_counterexample :
    bodyNE.isEmpty = false ∧
    envBodyFail.fails (.bodyStlEncode (joinPath ['p'] bodyNE.name ++ extStl)) = true ∧
    (write_stl_body cfgAll envBodyFail (joinPath ['p'] bodyNE.name) bodyNE
        (S.init [])).1.num_issues = 0 := by decide

/-- Claim C9 (amended): every body STL encode failure is swallowed by
`_write_stl_body`: the issue counter is never changed and no exception
escapes, regardless of the body. -/
theorem C9_amended (cfg : Config) (env : Env) (p : Name) (b : BodyData) (s : S) :
    (write_stl_body cfg env p b s).1.num_issues = s.num_issues ∧
    (write_stl_body cfg env p b s).2 = false := by
  unfold write_stl_body
  dsimp only
  split
  · exact ⟨rfl, rfl⟩
  · split <;> exact ⟨rfl, rfl⟩

/-! ## Claim C10 (component-level STL failure accounting) -/

/-- Claim C10: when the component-level STL export raises, the issue counter
is incremented exactly when the component is non-empty (occurrence count plus
solid-body count plus mesh-body count is positive); the failure never
propagates. -/
theorem C10_write_stl_issues (cfg : Config) (env : Env) (p : Name) (c : Component)
    (s : S)
    (hg : (!cfg.overwrite_existing && pathExists s (p ++ extStl)) = false)
    (hf : env.fails (.stlEncode p) = true) :
    (write_stl cfg env p c s).1.num_issues =
      (if c.occurrences.length + c.bRepBodies.length + c.meshBodies.length > 0
       then s.num_issues + 1 else s.num_issues) ∧
    (write_stl cfg env p c s).2 = false := by
  unfold write_stl
  dsimp only
  rw [hg, hf]
  simp only [Bool.false_eq_true, if_false, if_true]
  split
  · exact ⟨by simp, rfl⟩
  · exact ⟨by simp, rfl⟩

theorem C10_witness :
    ((!cfgAll.overwrite_existing && pathExists (S.init []) (['p'] ++ extStl)) = false ∧
     envStlFail.fails (.stlEncode ['p']) = true) ∧
    (write_stl cfgAll envStlFail ['p'] compWithBody (S.init [])).1.num_issues =
      (if compWithBody.occurrences.length + compWithBody.bRepBodies.length
            + compWithBody.meshBodies.length > 0
       then (S.init []).num_issues + 1 else (S.init []).num_issues) ∧
    (write_stl cfgAll envStlFail ['p'] compWithBody (S.init [])).2 = false :=
  ⟨⟨by decide, by decide⟩,
   C10_write_stl_issues cfgAll envStlFail ['p'] compWithBody (S.init [])
     (by decide) (by decide)⟩

/-! ## State-preservation lemmas for the issue counter and cancel flag -/

theorem stepdxf_fails_false {env : Env} (hS : StepDxfOnly env) {c : ExtCall}
    (h1 : ∀ p, c ≠ ExtCall.stepEncode p) (h2 : ∀ p, c ≠ ExtCall.dxfEncode p) :
    env.fails c = false := by
  cases hb : env.fails c with
  | false => rfl
  | true =>
    rcases hS c hb with ⟨p, hp⟩ | ⟨p, hp⟩
    · exact absurd hp (h1 p)
    · exact absurd hp (h2 p)

theorem write_step_state (cfg : Config) (env : Env) (p : Name) (s : S) :
    (write_step cfg env p s).1.num_issues = s.num_issues ∧
    (write_step cfg env p s).1.was_cancelled = s.was_cancelled ∧
    (write_step cfg env p s).1.pollCount = s.pollCount := by
  unfold write_step
  dsimp only
  split
  · exact ⟨rfl, rfl, rfl⟩
  · split <;> exact ⟨rfl, rfl, rfl⟩

theorem write_stl_state (cfg : Config) (env : Env) (p : Name) (c : Component) (s : S)
    (hf : env.fails (.stlEncode p) = false) :
    (write_stl cfg env p c s).1.num_issues = s.num_issues ∧
    (write_stl cfg env p c s).1.was_cancelled = s.was_cancelled ∧
    (write_stl cfg env p c s).1.pollCount = s.pollCount := by
  unfold write_stl
  dsimp only
  rw [hf]
  split
  · exact ⟨rfl, rfl, rfl⟩
  · simp only [Bool.false_eq_true, if_false]
    exact ⟨rfl, rfl, rfl⟩

theorem write_iges_state (cfg : Config) (env : Env) (p : Name) (s : S) :
    (write_iges cfg env p s).1.num_issues = s.num_issues ∧
    (write_iges cfg env p s).1.was_cancelled = s.was_cancelled ∧
    (write_iges cfg env p s).1.pollCount = s.pollCount := by
  unfold write_iges
  dsimp only
  split
  · exact ⟨rfl, rfl, rfl⟩
  · split <;> exact ⟨rfl, rfl, rfl⟩

theorem write_dxf_state (cfg : Config) (env : Env) (p : Name) (s : S) :
    (write_dxf cfg env p s).1.num_issues = s.num_issues ∧
    (write_dxf cfg env p s).1.was_cancelled = s.was_cancelled ∧
    (write_dxf cfg env p s).1.pollCount = s.pollCount := by
  unfold write_dxf
  dsimp only
  split
  · exact ⟨rfl, rfl, rfl⟩
  · split <;> exact ⟨rfl, rfl, rfl⟩

theorem write_stl_body_state (cfg : Config) (env : Env) (p : Name) (b : BodyData)
    (s : S) :
    ((write_stl_body cfg env p b s).1.num_issues = s.num_issues ∧
     (write_stl_body cfg env p b s).1.was_cancelled = s.was_cancelled ∧
     (write_stl_body cfg env p b s).1.pollCount = s.pollCount) ∧
    (write_stl_body cfg env p b s).2 = false := by
  unfold write_stl_body
  dsimp only
  split
  · exact ⟨⟨rfl, rfl, rfl⟩, rfl⟩
  · split <;> exact ⟨⟨rfl, rfl, rfl⟩, rfl⟩

theorem write_screenshot_state (cfg : Config) (env : Env) (p : Name) (s : S) :
    (write_screenshot cfg env p s).num_issues = s.num_issues ∧
    (write_screenshot cfg env p s).was_cancelled = s.was_cancelled ∧
    (write_screenshot cfg env p s).pollCount = s.pollCount := by
  unfold write_screenshot
  dsimp only
  split
  · split
    · split <;> exact ⟨rfl, rfl, rfl⟩
    · exact ⟨rfl, rfl, rfl⟩
  · exact ⟨rfl, rfl, rfl⟩

theorem write_step_ni (cfg : Config) (env : Env) (p : Name) (s : S) :
    (write_step cfg env p s).1.num_issues = s.num_issues :=
  (write_step_state cfg env p s).1

theorem write_step_wc (cfg : Config) (env : Env) (p : Name) (s : S) :
    (write_step cfg env p s).1.was_cancelled = s.was_cancelled :=
  (write_step_state cfg env p s).2.1

theorem write_step_pc (cfg : Config) (env : Env) (p : Name) (s : S) :
    (write_step cfg env p s).1.pollCount = s.pollCount :=
  (write_step_state cfg env p s).2.2

theorem write_stl_ni (cfg : Config) (env : Env) (p : Name) (c : Component) (s : S)
    (hf : env.fails (.stlEncode p) = false) :
    (write_stl cfg env p c s).1.num_issues = s.num_issues :=
  (write_stl_state cfg env p c s hf).1

theorem write_stl_wc (cfg : Config) (env : Env) (p : Name) (c : Component) (s : S)
    (hf : env.fails (.stlEncode p) = false) :
    (write_stl cfg env p c s).1.was_cancelled = s.was_cancelled :=
  (write_stl_state cfg env p c s hf).2.1

theorem write_stl_pc (cfg : Config) (env : Env) (p : Name) (c : Component) (s : S)
    (hf : env.fails (.stlEncode p) = false) :
    (write_stl cfg env p c s).1.pollCount = s.pollCount :=
  (write_stl_state cfg env p c s hf).2.2

theorem write_iges_ni (cfg : Config) (env : Env) (p : Name) (s : S) :
    (write_iges cfg env p s).1.num_issues = s.num_issues :=
  (write_iges_state cfg env p s).1

theorem write_iges_wc (cfg : Config) (env : Env) (p : Name) (s : S) :
    (write_iges cfg env p s).1.was_cancelled = s.was_cancelled :=
  (write_iges_state cfg env p s).2.1

theorem write_iges_pc (cfg : Config) (env : Env) (p : Name) (s : S) :
    (write_iges cfg env p s).1.pollCount = s.pollCount :=
  (write_iges_state cfg env p s).2.2

theorem formats_section_state (cfg : Config) (env : Env) (op : Name) (c : Component)
    (s : S) (hS : StepDxfOnly env) :
    (formats_section cfg env op c s).num_issues = s.num_issues ∧
    (formats_section cfg env op c s).was_cancelled = s.was_cancelled ∧
    (formats_section cfg env op c s).pollCount = s.pollCount := by
  have hstl : env.fails (.stlEncode op) = false :=
    stepdxf_fails_false hS (fun p h => ExtCall.noConfusion h)
      (fun p h => ExtCall.noConfusion h)
  unfold formats_section
  dsimp only
  refine ⟨?_, ?_, ?_⟩ <;>
    split_ifs <;>
      simp [write_step_ni, write_step_wc, write_step_pc, write_stl_ni, write_stl_wc,
        write_stl_pc, write_iges_ni, write_iges_wc, write_iges_pc, hstl]

theorem sketches_fold_state (cfg : Config) (env : Env) (op : Name)
    (sks : List Name) (s : S) :
    (sks.foldl (fun acc skn => (write_dxf cfg env (joinPath op skn) acc).1) s).num_issues
      = s.num_issues ∧
    (sks.foldl (fun acc skn => (write_dxf cfg env (joinPath op skn) acc).1) s).was_cancelled
      = s.was_cancelled ∧
    (sks.foldl (fun acc skn => (write_dxf cfg env (joinPath op skn) acc).1) s).pollCount
      = s.pollCount := by
  induction sks generalizing s with
  | nil => exact ⟨rfl, rfl, rfl⟩
  | cons a t ih =>
    rw [List.foldl_cons]
    obtain ⟨i1, i2, i3⟩ := ih ((write_dxf cfg env (joinPath op a) s).1)
    obtain ⟨d1, d2, d3⟩ := write_dxf_state cfg env (joinPath op a) s
    exact ⟨by rw [i1, d1], by rw [i2, d2], by rw [i3, d3]⟩

theorem sketches_section_state (cfg : Config) (env : Env) (op : Name)
    (sks : List Name) (s : S) :
    (sketches_section cfg env op sks s).num_issues = s.num_issues ∧
    (sketches_section cfg env op sks s).was_cancelled = s.was_cancelled ∧
    (sketches_section cfg env op sks s).pollCount = s.pollCount := by
  unfold sketches_section
  split
  · exact sketches_fold_state cfg env op sks s
  · exact ⟨rfl, rfl, rfl⟩

theorem create_path_state (env : Env) (p : Name) (s : S) :
    ((create_path env p s).1.num_issues = s.num_issues ∧
     (create_path env p s).1.was_cancelled = s.was_cancelled ∧
     (create_path env p s).1.pollCount = s.pollCount) := by
  unfold create_path
  split <;> exact ⟨rfl, rfl, rfl⟩

theorem bodies_loop_state (cfg : Config) (env : Env) (op : Name) (bs : List BodyData)
    (s : S) (hC : NoCancel env) :
    ((bodies_loop cfg env op bs s).1.num_issues = s.num_issues ∧
     (bodies_loop cfg env op bs s).1.was_cancelled = s.was_cancelled) ∧
    (bodies_loop cfg env op bs s).2 = false := by
  induction bs generalizing s with
  | nil => exact ⟨⟨rfl, rfl⟩, rfl⟩
  | cons b t ih =>
    unfold bodies_loop
    dsimp only
    rw [pollDialog_fst, hC s.pollCount]
    simp only [Bool.false_eq_true, if_false]
    obtain ⟨⟨i1, i2⟩, i3⟩ :=
      ih ((write_stl_body cfg env (joinPath op b.name) b (pollDialog env s).2).1)
    obtain ⟨⟨b1, b2, _⟩, _⟩ :=
      write_stl_body_state cfg env (joinPath op b.name) b (pollDialog env s).2
    refine ⟨⟨?_, ?_⟩, i3⟩
    · rw [i1, b1]; rfl
    · rw [i2, b2]; rfl

theorem bodies_section_state (cfg : Config) (env : Env) (op : Name)
    (bb mb : List BodyData) (s : S) (hmk : env.fails (.mkdirs op) = false)
    (hC : NoCancel env) :
    ((bodies_section cfg env op bb mb s).1.1.num_issues = s.num_issues ∧
     (bodies_section cfg env op bb mb s).1.1.was_cancelled = s.was_cancelled) ∧
    (bodies_section cfg env op bb mb s).1.2 = false ∧
    (bodies_section cfg env op bb mb s).2 = false := by
  unfold bodies_section create_path
  split
  · split
    · rw [hmk]
      simp only [Bool.false_eq_true, if_false]
      obtain ⟨⟨i1, i2⟩, i3⟩ := bodies_loop_state cfg env op bb (addFs op s) hC
      split
      · rename_i s2 heq
        rw [heq] at i3
        exact absurd i3 (by simp)
      · rename_i s2 heq
        split
        · obtain ⟨⟨j1, j2⟩, j3⟩ := bodies_loop_state cfg env op mb s2 hC
          rw [heq] at i1 i2
          dsimp only at i1 i2
          refine ⟨⟨by rw [j1, i1]; rfl, by rw [j2, i2]; rfl⟩, j3, rfl⟩
        · rw [heq] at i1 i2
          dsimp only at i1 i2
          exact ⟨⟨by rw [i1]; rfl, by rw [i2]; rfl⟩, rfl, rfl⟩
    · split
      · exact ⟨⟨(bodies_loop_state cfg env op mb s hC).1.1,
               (bodies_loop_state cfg env op mb s hC).1.2⟩,
              (bodies_loop_state cfg env op mb s hC).2, rfl⟩
      · exact ⟨⟨rfl, rfl⟩, rfl, rfl⟩
  · exact ⟨⟨rfl, rfl⟩, rfl, rfl⟩

theorem create_path_ok {env : Env} {p : Name} (h : env.fails (.mkdirs p) = false)
    (s : S) : create_path env p s = (addFs p s, false) := by
  unfold create_path
  rw [h]
  simp

theorem pathExists_addFs_self (p : Name) (s : S) : pathExists (addFs p s) p = true := by
  simp [pathExists, addFs]

mutual
theorem write_component_quiet (cfg : Config) (env : Env) (base : Name) (c : Component)
    (s : S) (hS : StepDxfOnly env) (hC : NoCancel env) :
    ((write_component cfg env base c s).1.num_issues = s.num_issues ∧
     (write_component cfg env base c s).1.was_cancelled = s.was_cancelled) ∧
    (write_component cfg env base c s).2 = false := by
  cases c with
  | mk n sk bb mb occs =>
    unfold write_component
    dsimp only
    rw [pollDialog_fst, hC s.pollCount]
    simp only [Bool.false_eq_true, if_false]
    obtain ⟨f1, f2, _⟩ := formats_section_state cfg env (joinPath base (cleanup_name n))
      (Component.mk n sk bb mb occs) (pollDialog env s).2 hS
    obtain ⟨k1, k2, _⟩ := sketches_section_state cfg env (joinPath base (cleanup_name n))
      sk (formats_section cfg env (joinPath base (cleanup_name n))
        (Component.mk n sk bb mb occs) (pollDialog env s).2)
    obtain ⟨⟨b1, b2⟩, b3, b4⟩ := bodies_section_state cfg env
      (joinPath base (cleanup_name n)) bb mb
      (sketches_section cfg env (joinPath base (cleanup_name n)) sk
        (formats_section cfg env (joinPath base (cleanup_name n))
          (Component.mk n sk bb mb occs) (pollDialog env s).2))
      (stepdxf_fails_false hS (fun p h => ExtCall.noConfusion h)
        (fun p h => ExtCall.noConfusion h)) hC
    split
    · rename_i s3 snd heq
      rw [heq] at b4
      exact absurd b4 (by simp)
    · rename_i s3 heq
      rw [heq] at b3
      exact absurd b3 (by simp)
    · rename_i s3 heq
      rw [heq] at b1 b2
      dsimp only at b1 b2
      split
      · split
        · exact ⟨⟨by rw [b1, k1, f1]; rfl, by rw [b2, k2, f2]; rfl⟩, rfl⟩
        · obtain ⟨o1, o2⟩ := occs_loop_quiet cfg env base (cleanup_name n) occs s3 hS hC
          exact ⟨⟨by rw [o1, b1, k1, f1]; rfl, by rw [o2, b2, k2, f2]; rfl⟩, rfl⟩
      · exact ⟨⟨by rw [b1, k1, f1]; rfl, by rw [b2, k2, f2]; rfl⟩, rfl⟩

theorem occs_loop_quiet (cfg : Config) (env : Env) (pb pc : Name) (occs : CompList)
    (s : S) (hS : StepDxfOnly env) (hC : NoCancel env) :
    (occs_loop cfg env pb pc occs s).num_issues = s.num_issues ∧
    (occs_loop cfg env pb pc occs s).was_cancelled = s.was_cancelled := by
  cases occs with
  | nil => exact ⟨rfl, rfl⟩
  | cons sub rest =>
    unfold occs_loop
    dsimp only
    rw [pollDialog_fst, hC s.pollCount]
    simp only [Bool.false_eq_true, if_false]
    have hmk : env.fails (.mkdirs (joinPath pb pc)) = false :=
      stepdxf_fails_false hS (fun p h => ExtCall.noConfusion h)
        (fun p h => ExtCall.noConfusion h)
    rw [create_path_ok hmk]
    dsimp only
    obtain ⟨⟨w1, w2⟩, _⟩ := write_component_quiet cfg env (joinPath pb pc) sub
      (addFs (joinPath pb pc) (pollDialog env s).2) hS hC
    obtain ⟨o1, o2⟩ := occs_loop_quiet cfg env pb pc rest
      ((write_component cfg env (joinPath pb pc) sub
        (addFs (joinPath pb pc) (pollDialog env s).2)).1) hS hC
    exact ⟨by rw [o1, w1]; rfl, by rw [o2, w2]; rfl⟩
end

theorem design_body_quiet (cfg : Config) (env : Env) (root hubName projName : Name)
    (file : DataFile) (s : S) (hS : StepDxfOnly env) (hC : NoCancel env) :
    (design_body cfg env root hubName projName file s).num_issues = s.num_issues ∧
    (design_body cfg env root hubName projName file s).was_cancelled
      = s.was_cancelled := by
  unfold design_body
  dsimp only
  have hmk : ∀ p, env.fails (.mkdirs p) = false := fun p =>
    stepdxf_fails_false hS (fun q h => ExtCall.noConfusion h)
      (fun q h => ExtCall.noConfusion h)
  have harch : ∀ p, env.fails (.archiveEncode p) = false := fun p =>
    stepdxf_fails_false hS (fun q h => ExtCall.noConfusion h)
      (fun q h => ExtCall.noConfusion h)
  rw [create_path_ok (hmk _)]
  dsimp only
  rw [pathExists_addFs_self]
  simp only [Bool.not_true, Bool.false_eq_true, if_false]
  rw [harch]
  simp only [Bool.false_eq_true, if_false]
  obtain ⟨c1, c2, _⟩ := write_screenshot_state cfg env
    (joinPath (joinAll root
      [hubSegHead ++ cleanup_name hubName, projSegHead ++ cleanup_name projName,
       buildFolderPath file.folderChain,
       cleanup_name file.name ++ '.' :: file.fileExtension])
      (cleanup_name file.name ++ extPng)) (addFs _ s)
  obtain ⟨⟨w1, w2⟩, w3⟩ := write_component_quiet cfg env
    (joinAll root
      [hubSegHead ++ cleanup_name hubName, projSegHead ++ cleanup_name projName,
       buildFolderPath file.folderChain,
       cleanup_name file.name ++ '.' :: file.fileExtension])
    file.rootComponent
    (addFs _ (emit (.write .archive _) (write_screenshot cfg env _ (addFs _ s)))) hS hC
  split
  · rename_i s5 heq
    rw [heq] at w3
    exact absurd w3 (by simp)
  · rename_i s5 heq
    rw [heq] at w1 w2
    dsimp only at w1 w2
    constructor
    · rw [w1]
      simp only [num_issues_addFs, num_issues_emit]
      rw [c1]
      rfl
    · rw [w2]
      simp only [was_cancelled_addFs, was_cancelled_emit]
      rw [c2]
      rfl

theorem export_design_quiet (cfg : Config) (env : Env) (root hubName projName : Name)
    (file : DataFile) (s : S) (hS : StepDxfOnly env) (hC : NoCancel env) :
    (export_design cfg env root hubName projName file s).num_issues = s.num_issues ∧
    (export_design cfg env root hubName projName file s).was_cancelled
      = s.was_cancelled := by
  unfold export_design
  have hopen : env.fails (.openDoc file.name) = false :=
    stepdxf_fails_false hS (fun q h => ExtCall.noConfusion h)
      (fun q h => ExtCall.noConfusion h)
  have hact : env.fails (.activateDoc file.name) = false :=
    stepdxf_fails_false hS (fun q h => ExtCall.noConfusion h)
      (fun q h => ExtCall.noConfusion h)
  have hclose : env.fails (.closeDoc file.name) = false :=
    stepdxf_fails_false hS (fun q h => ExtCall.noConfusion h)
      (fun q h => ExtCall.noConfusion h)
  split
  · exact ⟨rfl, rfl⟩
  · rw [hopen]
    simp only [Bool.false_eq_true, if_false]
    rw [hact]
    simp only [Bool.false_eq_true, if_false]
    unfold close_attempt
    rw [hclose]
    simp only [Bool.false_eq_true, if_false]
    obtain ⟨d1, d2⟩ := design_body_quiet cfg env root hubName projName file
      (emit (.openDoc file.name) s) hS hC
    exact ⟨by simp only [num_issues_emit]; rw [d1]; rfl,
           by simp only [was_cancelled_emit]; rw [d2]; rfl⟩

theorem files_loop_quiet (cfg : Config) (env : Env) (root hubName projName : Name)
    (files : List DataFile) (s : S) (hS : StepDxfOnly env) (hC : NoCancel env)
    (hw : s.was_cancelled = false) :
    ((files_loop cfg env root hubName projName files s).1.num_issues = s.num_issues ∧
     (files_loop cfg env root hubName projName files s).1.was_cancelled = false) ∧
    (files_loop cfg env root hubName projName files s).2 = false := by
  induction files generalizing s with
  | nil => exact ⟨⟨rfl, hw⟩, rfl⟩
  | cons f rest ih =>
    unfold files_loop
    dsimp only
    rw [hw]
    simp only [Bool.false_eq_true, if_false]
    rw [pollDialog_fst, hC s.pollCount]
    simp only [Bool.false_eq_true, if_false]
    obtain ⟨e1, e2⟩ := export_design_quiet cfg env root hubName projName f
      (pollDialog env s).2 hS hC
    have hw2 : (export_design cfg env root hubName projName f
        (pollDialog env s).2).was_cancelled = false := by
      rw [e2]; exact hw
    obtain ⟨⟨i1, i2⟩, i3⟩ := ih _ hw2
    exact ⟨⟨by rw [i1, e1]; rfl, i2⟩, i3⟩

theorem projects_loop_quiet (cfg : Config) (env : Env) (root hubName : Name)
    (projs : List Project) (s : S) (hS : StepDxfOnly env) (hC : NoCancel env)
    (hw : s.was_cancelled = false) :
    ((projects_loop cfg env root hubName projs s).1.num_issues = s.num_issues ∧
     (projects_loop cfg env root hubName projs s).1.was_cancelled = false) ∧
    (projects_loop cfg env root hubName projs s).2 = false := by
  induction projs generalizing s with
  | nil => exact ⟨⟨rfl, hw⟩, rfl⟩
  | cons p rest ih =>
    unfold projects_loop
    dsimp only
    rw [hw]
    simp only [Bool.false_eq_true, if_false]
    rw [pollDialog_fst, hC s.pollCount]
    simp only [Bool.false_eq_true, if_false]
    split
    · obtain ⟨⟨g1, g2⟩, g3⟩ := files_loop_quiet cfg env root hubName p.name
        (getFilesFor p.rootFolder) (pollDialog env s).2 hS hC hw
      split
      · rename_i s2 heq
        rw [heq] at g3
        exact absurd g3 (by simp)
      · rename_i s2 heq
        rw [heq] at g1 g2
        dsimp only at g1 g2
        obtain ⟨⟨i1, i2⟩, i3⟩ := ih s2 g2
        exact ⟨⟨by rw [i1, g1]; rfl, i2⟩, i3⟩
    · exact ih _ hw

theorem hubs_loop_quiet (cfg : Config) (env : Env) (root active : Name)
    (hubs : List Hub) (s : S) (hS : StepDxfOnly env) (hC : NoCancel env)
    (hw : s.was_cancelled = false) :
    (hubs_loop cfg env root active hubs s).num_issues = s.num_issues ∧
    (hubs_loop cfg env root active hubs s).was_cancelled = false := by
  induction hubs generalizing s with
  | nil => exact ⟨rfl, hw⟩
  | cons h rest ih =>
    unfold hubs_loop
    split
    · obtain ⟨⟨g1, g2⟩, g3⟩ := projects_loop_quiet cfg env root h.name h.dataProjects
        s hS hC hw
      split
      · rename_i s1 heq
        rw [heq] at g3
        exact absurd g3 (by simp)
      · rename_i s1 heq
        rw [heq] at g1 g2
        dsimp only at g1 g2
        obtain ⟨i1, i2⟩ := ih s1 g2
        exact ⟨by rw [i1, g1], i2⟩
    · exact ih s hw

/-! ## Claim C1 (issue accounting for STEP and DXF failures) -/

/-- Claim C1 counterexample: a run with exactly one failed STEP export and
exactly one failed DXF export (and no other failure) ends with zero issues
and outcome Success, not with an issue count of 2 and PartialFailure 2:
`_write_component` catches STEP and DXF encode failures and only logs them. -/
theorem C1_counterexample :
    (export_data cfgAll envStepDxfFail rootO hierA (S.init [])).trace.countP
        (fun e => match e with | Event.write WriteKind.step _ => true | _ => false) = 1 ∧
    (export_data cfgAll envStepDxfFail rootO hierA (S.init [])).trace.countP
        (fun e => match e with | Event.write WriteKind.dxf _ => true | _ => false) = 1 ∧
    (export_data cfgAll envStepDxfFail rootO hierA (S.init [])).num_issues = 0 ∧
    outcome (export_data cfgAll envStepDxfFail rootO hierA (S.init []))
      = Outcome.Success := by decide

/-- Claim C1 (amended): in every run in which only STEP-encoder and
DXF-encoder calls fail (and cancellation is never observed), the issue
counter ends at 0 and the outcome is Success: STEP and DXF encode failures
are caught and logged in `_write_component` without being recorded in the
issue counter. -/
theorem C1_amended (cfg : Config) (env : Env) (root : Name) (d : AppData)
    (hS : StepDxfOnly env) (hC : NoCancel env) :
    (export_data cfg env root d (S.init [])).num_issues = 0 ∧
    outcome (export_data cfg env root d (S.init [])) = Outcome.Success := by
  obtain ⟨h1, h2⟩ := hubs_loop_quiet cfg env root d.activeHubName d.hubs
    (S.init []) hS hC rfl
  unfold export_data
  rw [show (S.init []).num_issues = 0 from rfl] at h1
  refine ⟨h1, ?_⟩
  unfold outcome
  rw [h1, h2]
  simp

theorem C1_witness :
    (StepDxfOnly envStepDxfFail ∧ NoCancel envStepDxfFail) ∧
    (export_data cfgAll envStepDxfFail rootO hierA (S.init [])).num_issues = 0 ∧
    outcome (export_data cfgAll envStepDxfFail rootO hierA (S.init []))
      = Outcome.Success := by
  have hS : StepDxfOnly envStepDxfFail := by
    intro c h
    cases c with
    | stepEncode p => exact Or.inl ⟨p, rfl⟩
    | dxfEncode p => exact Or.inr ⟨p, rfl⟩
    | _ => exact absurd h (by simp [envStepDxfFail])
  have hC : NoCancel envStepDxfFail := fun k => rfl
  exact ⟨⟨hS, hC⟩, C1_amended cfgAll envStepDxfFail rootO hierA hS hC⟩

/-! ## Trace-extension lemmas: the walk only appends events -/

theorem TraceExt.refl (s : S) : TraceExt s s := ⟨[], by simp⟩

theorem TraceExt.trans {a b c : S} (h1 : TraceExt a b) (h2 : TraceExt b c) :
    TraceExt a c := by
  obtain ⟨t1, e1⟩ := h1
  obtain ⟨t2, e2⟩ := h2
  exact ⟨t1 ++ t2, by rw [e2, e1, List.append_assoc]⟩

theorem TraceExt.mem {a b : S} (h : TraceExt a b) {e : Event} (he : e ∈ a.trace) :
    e ∈ b.trace := by
  obtain ⟨t, ht⟩ := h
  rw [ht]
  exact List.mem_append_left _ he

theorem traceExt_emit (e : Event) (s : S) : TraceExt s (emit e s) := ⟨[e], rfl⟩

theorem traceExt_addFs (p : Name) (s : S) : TraceExt s (addFs p s) := ⟨[], by simp⟩

theorem traceExt_addIssue (s : S) : TraceExt s (addIssue s) := ⟨[], by simp⟩

theorem traceExt_markCancelled (s : S) : TraceExt s (markCancelled s) :=
  ⟨[Event.cancelObserved], rfl⟩

theorem traceExt_poll (env : Env) (s : S) : TraceExt s (pollDialog env s).2 :=
  ⟨[], by simp⟩

theorem traceExt_ite (P : Prop) [Decidable P] (f : S → S) (s : S)
    (hf : ∀ t, TraceExt t (f t)) : TraceExt s (if P then f s else s) := by
  split
  · exact hf s
  · exact TraceExt.refl s

theorem traceExt_write_step (cfg : Config) (env : Env) (p : Name) (s : S) :
    TraceExt s (write_step cfg env p s).1 := by
  unfold write_step
  dsimp only
  split
  · exact TraceExt.refl s
  · split
    · exact traceExt_emit _ _
    · exact TraceExt.trans (traceExt_emit _ _) (traceExt_addFs _ _)

theorem traceExt_write_stl (cfg : Config) (env : Env) (p : Name) (c : Component)
    (s : S) : TraceExt s (write_stl cfg env p c s).1 := by
  unfold write_stl
  dsimp only
  split
  · exact TraceExt.refl s
  · split
    · split
      · exact TraceExt.trans (traceExt_emit _ _) (traceExt_addIssue _)
      · exact traceExt_emit _ _
    · exact TraceExt.trans (traceExt_emit _ _) (traceExt_addFs _ _)

theorem traceExt_write_iges (cfg : Config) (env : Env) (p : Name) (s : S) :
    TraceExt s (write_iges cfg env p s).1 := by
  unfold write_iges
  dsimp only
  split
  · exact TraceExt.refl s
  · split
    · exact traceExt_emit _ _
    · exact TraceExt.trans (traceExt_emit _ _) (traceExt_addFs _ _)

theorem traceExt_write_dxf (cfg : Config) (env : Env) (p : Name) (s : S) :
    TraceExt s (write_dxf cfg env p s).1 := by
  unfold write_dxf
  dsimp only
  split
  · exact TraceExt.refl s
  · split
    · exact traceExt_emit _ _
    · exact TraceExt.trans (traceExt_emit _ _) (traceExt_addFs _ _)

theorem traceExt_write_stl_body (cfg : Config) (env : Env) (p : Name) (b : BodyData)
    (s : S) : TraceExt s (write_stl_body cfg env p b s).1 := by
  unfold write_stl_body
  dsimp only
  split
  · exact TraceExt.refl s
  · split
    · exact traceExt_emit _ _
    · exact TraceExt.trans (traceExt_emit _ _) (traceExt_addFs _ _)

theorem traceExt_write_screenshot (cfg : Config) (env : Env) (p : Name) (s : S) :
    TraceExt s (write_screenshot cfg env p s) := by
  unfold write_screenshot
  dsimp only
  split
  · split
    · split
      · exact traceExt_emit _ _
      · exact TraceExt.trans (traceExt_emit _ _) (traceExt_addFs _ _)
    · exact TraceExt.refl s
  · exact TraceExt.refl s

theorem traceExt_create_path (env : Env) (p : Name) (s : S) :
    TraceExt s (create_path env p s).1 := by
  unfold create_path
  split
  · exact TraceExt.refl s
  · exact traceExt_addFs _ _

theorem traceExt_formats (cfg : Config) (env : Env) (op : Name) (c : Component)
    (s : S) : TraceExt s (formats_section cfg env op c s) := by
  unfold formats_section
  dsimp only
  exact TraceExt.trans
    (TraceExt.trans
      (traceExt_ite _ (fun t => (write_step cfg env op t).1) s
        (fun t => traceExt_write_step cfg env op t))
      (traceExt_ite _ (fun t => (write_stl cfg env op c t).1) _
        (fun t => traceExt_write_stl cfg env op c t)))
    (traceExt_ite _ (fun t => (write_iges cfg env op t).1) _
      (fun t => traceExt_write_iges cfg env op t))

theorem traceExt_sketches_fold (cfg : Config) (env : Env) (op : Name)
    (sks : List Name) (s : S) :
    TraceExt s (sks.foldl (fun acc skn => (write_dxf cfg env (joinPath op skn) acc).1) s) := by
  induction sks generalizing s with
  | nil => exact TraceExt.refl s
  | cons a t ih =>
    rw [List.foldl_cons]
    exact TraceExt.trans (traceExt_write_dxf cfg env (joinPath op a) s) (ih _)

theorem traceExt_sketches (cfg : Config) (env : Env) (op : Name) (sks : List Name)
    (s : S) : TraceExt s (sketches_section cfg env op sks s) := by
  unfold sketches_section
  split
  · exact traceExt_sketches_fold cfg env op sks s
  · exact TraceExt.refl s

theorem traceExt_bodies_loop (cfg : Config) (env : Env) (op : Name)
    (bs : List BodyData) (s : S) : TraceExt s (bodies_loop cfg env op bs s).1 := by
  induction bs generalizing s with
  | nil => exact TraceExt.refl s
  | cons b t ih =>
    unfold bodies_loop
    dsimp only
    split
    · exact TraceExt.trans (traceExt_poll env s) (traceExt_markCancelled _)
    · exact TraceExt.trans (traceExt_poll env s)
        (TraceExt.trans (traceExt_write_stl_body cfg env (joinPath op b.name) b _) (ih _))

theorem traceExt_bodies_section (cfg : Config) (env : Env) (op : Name)
    (bb mb : List BodyData) (s : S) :
    TraceExt s (bodies_section cfg env op bb mb s).1.1 := by
  unfold bodies_section
  split
  · split
    · split
      · rename_i s1 heq
        have h1 : TraceExt s s1 := by
          have := traceExt_create_path env op s
          rw [heq] at this
          exact this
        exact h1
      · rename_i s1 heq
        have h1 : TraceExt s s1 := by
          have := traceExt_create_path env op s
          rw [heq] at this
          exact this
        split
        · rename_i s2 heq2
          have h2 : TraceExt s1 s2 := by
            have := traceExt_bodies_loop cfg env op bb s1
            rw [heq2] at this
            exact this
          exact TraceExt.trans h1 h2
        · rename_i s2 heq2
          have h2 : TraceExt s1 s2 := by
            have := traceExt_bodies_loop cfg env op bb s1
            rw [heq2] at this
            exact this
          split
          · exact TraceExt.trans h1 (TraceExt.trans h2 (traceExt_bodies_loop cfg env op mb s2))
          · exact TraceExt.trans h1 h2
    · split
      · exact traceExt_bodies_loop cfg env op mb s
      · exact TraceExt.refl s
  · exact TraceExt.refl s

mutual
theorem traceExt_write_component (cfg : Config) (env : Env) (base : Name)
    (c : Component) (s : S) : TraceExt s (write_component cfg env base c s).1 := by
  cases c with
  | mk n sk bb mb occs =>
    unfold write_component
    dsimp only
    split
    · exact TraceExt.trans (traceExt_poll env s) (traceExt_markCancelled _)
    · have hpre : TraceExt s
          (sketches_section cfg env (joinPath base (cleanup_name n)) sk
            (formats_section cfg env (joinPath base (cleanup_name n))
              (Component.mk n sk bb mb occs) (pollDialog env s).2)) :=
        TraceExt.trans (traceExt_poll env s)
          (TraceExt.trans
            (traceExt_formats cfg env (joinPath base (cleanup_name n))
              (Component.mk n sk bb mb occs) (pollDialog env s).2)
            (traceExt_sketches cfg env (joinPath base (cleanup_name n)) sk _))
      have hbs : TraceExt s
          (bodies_section cfg env (joinPath base (cleanup_name n)) bb mb
            (sketches_section cfg env (joinPath base (cleanup_name n)) sk
              (formats_section cfg env (joinPath base (cleanup_name n))
                (Component.mk n sk bb mb occs) (pollDialog env s).2))).1.1 :=
        TraceExt.trans hpre (traceExt_bodies_section cfg env _ bb mb _)
      split
      · rename_i s3 snd heq
        rw [heq] at hbs
        exact hbs
      · rename_i s3 heq
        rw [heq] at hbs
        exact hbs
      · rename_i s3 heq
        rw [heq] at hbs
        dsimp only at hbs
        split
        · split
          · exact hbs
          · exact TraceExt.trans hbs
              (traceExt_occs_loop cfg env base (cleanup_name n) occs s3)
        · exact hbs

theorem traceExt_occs_loop (cfg : Config) (env : Env) (pb pc : Name)
    (occs : CompList) (s : S) : TraceExt s (occs_loop cfg env pb pc occs s) := by
  cases occs with
  | nil => exact TraceExt.refl s
  | cons sub rest =>
    unfold occs_loop
    dsimp only
    split
    · exact TraceExt.trans (traceExt_poll env s) (traceExt_markCancelled _)
    · refine TraceExt.trans (traceExt_poll env s) (TraceExt.trans ?_
        (traceExt_occs_loop cfg env pb pc rest _))
      split
      · rename_i sa heq
        have := traceExt_create_path env (joinPath pb pc) (pollDialog env s).2
        rw [heq] at this
        exact this
      · rename_i sa heq
        have h1 : TraceExt (pollDialog env s).2 sa := by
          have := traceExt_create_path env (joinPath pb pc) (pollDialog env s).2
          rw [heq] at this
          exact this
        exact TraceExt.trans h1
          (traceExt_write_component cfg env (joinPath pb pc) sub sa)
end

/-! ## Claim C3 (document close on every exit path) -/

/-- Claim C3: for every design file whose document open succeeds, a close is
attempted on every exit path of the per-file export (the `finally` of
`_export_design`, and the handler of an activate failure); and when the open
itself raises, no document handle was obtained, so the guarded best-effort
close has nothing to close and the file is simply skipped with an issue. -/
theorem C3_close_on_every_path (cfg : Config) (env : Env)
    (root hubName projName : Name) (file : DataFile) (s : S)
    (helig : (file.fileExtension == extF3dName || file.fileExtension == extF3zName)
      = true) :
    (env.fails (.openDoc file.name) = false →
      Event.closeDoc file.name
        ∈ (export_design cfg env root hubName projName file s).trace) ∧
    (env.fails (.openDoc file.name) = true →
      export_design cfg env root hubName projName file s = addIssue s) := by
  unfold export_design
  rw [helig]
  simp only [Bool.not_true, Bool.false_eq_true, if_false]
  constructor
  · intro hopen
    rw [hopen]
    simp only [Bool.false_eq_true, if_false]
    split
    · unfold close_attempt
      split <;> simp
    · unfold close_attempt
      split <;> simp
  · intro hopen
    rw [hopen]
    simp

theorem C3_witness :
    ((fileA.fileExtension == extF3dName || fileA.fileExtension == extF3zName) = true ∧
     envOk.fails (.openDoc fileA.name) = false) ∧
    Event.closeDoc fileA.name
      ∈ (export_design cfgAll envOk rootO ['H'] ['P'] fileA (S.init [])).trace :=
  ⟨⟨by decide, by decide⟩,
   (C3_close_on_every_path cfgAll envOk rootO ['H'] ['P'] fileA (S.init [])
      (by decide)).1 (by decide)⟩

/-! ## Claim C5 (sub-component ceiling) -/

theorem bodies_loop_nosub (cfg : Config) (env : Env) (op : Name)
    (bs : List BodyData) (s : S) :
    bodies_loop { cfg with export_subcomponents := false } env op bs s
      = bodies_loop cfg env op bs s := by
  induction bs generalizing s with
  | nil => rfl
  | cons b t ih =>
    unfold bodies_loop
    dsimp only
    split
    · rfl
    · rw [show (write_stl_body { cfg with export_subcomponents := false } env
          (joinPath op b.name) b (pollDialog env s).2).1
          = (write_stl_body cfg env (joinPath op b.name) b (pollDialog env s).2).1
          from rfl, ih]

theorem bodies_section_nosub (cfg : Config) (env : Env) (op : Name)
    (bb mb : List BodyData) (s : S) :
    bodies_section { cfg with export_subcomponents := false } env op bb mb s
      = bodies_section cfg env op bb mb s := by
  unfold bodies_section
  simp only [show ({ cfg with export_subcomponents := false } : Config).export_bodies
    = cfg.export_bodies from rfl, bodies_loop_nosub]

/-- When the immediate occurrence count strictly exceeds the configured
maximum, `_write_component` behaves exactly as if sub-component export were
disabled: its own formats, sketches and bodies are still exported and the
occurrence loop is never entered. -/
theorem write_component_over_ceiling (cfg : Config) (env : Env) (base : Name)
    (n : Name) (sk : List Name) (bb mb : List BodyData) (occs : CompList) (s : S)
    (hgt : CompList.length occs > cfg.max_subcomponent_count) :
    write_component cfg env base (.mk n sk bb mb occs) s
      = write_component { cfg with export_subcomponents := false } env base
          (.mk n sk bb mb occs) s := by
  unfold write_component
  dsimp only
  split
  · rfl
  · have hss : sketches_section { cfg with export_subcomponents := false } env
        (joinPath base (cleanup_name n)) sk
        (formats_section { cfg with export_subcomponents := false } env
          (joinPath base (cleanup_name n))
          (Component.mk n sk bb mb occs) (pollDialog env s).2)
      = sketches_section cfg env (joinPath base (cleanup_name n)) sk
        (formats_section cfg env (joinPath base (cleanup_name n))
          (Component.mk n sk bb mb occs) (pollDialog env s).2) := rfl
    rw [hss, bodies_section_nosub]
    split
    · rfl
    · rfl
    · rename_i s3 heq
      simp only [Bool.false_eq_true, if_false]
      split <;>
        first
          | rfl
          | (split <;>
              first
                | rfl
                | (rename_i hnot
                   exact absurd hgt hnot))

/-- `_write_component` always issues its own STEP write call (cancellation
aside) when the stp format is enabled and overwrite is on. -/
theorem write_component_own_step (cfg : Config) (env : Env) (base : Name)
    (c : Component) (s : S) (hC : NoCancel env)
    (how : cfg.overwrite_existing = true)
    (hfmt : cfg.export_formats.contains fmtStp = true) :
    Event.write .step (joinPath base (cleanup_name c.name) ++ extStp)
      ∈ (write_component cfg env base c s).1.trace := by
  cases c with
  | mk n sk bb mb occs =>
    unfold write_component
    dsimp only [Component.name]
    rw [pollDialog_fst, hC s.pollCount]
    simp only [Bool.false_eq_true, if_false]
    have h1 : Event.write .step (joinPath base (cleanup_name n) ++ extStp)
        ∈ (formats_section cfg env (joinPath base (cleanup_name n))
            (Component.mk n sk bb mb occs) (pollDialog env s).2).trace := by
      unfold formats_section
      dsimp only
      rw [hfmt]
      simp only [if_true]
      have h0 : Event.write .step (joinPath base (cleanup_name n) ++ extStp)
          ∈ (write_step cfg env (joinPath base (cleanup_name n))
              (pollDialog env s).2).1.trace := by
        unfold write_step
        dsimp only
        rw [how]
        simp only [Bool.not_true, Bool.false_and, Bool.false_eq_true, if_false]
        split <;> simp
      exact (TraceExt.trans
        (traceExt_ite _
          (fun t => (write_stl cfg env (joinPath base (cleanup_name n))
            (Component.mk n sk bb mb occs) t).1) _
          (fun t => traceExt_write_stl cfg env (joinPath base (cleanup_name n))
            (Component.mk n sk bb mb occs) t))
        (traceExt_ite _
          (fun t => (write_iges cfg env (joinPath base (cleanup_name n)) t).1) _
          (fun t => traceExt_write_iges cfg env (joinPath base (cleanup_name n)) t))).mem h0
    have h2 : Event.write .step (joinPath base (cleanup_name n) ++ extStp)
        ∈ (sketches_section cfg env (joinPath base (cleanup_name n)) sk
            (formats_section cfg env (joinPath base (cleanup_name n))
              (Component.mk n sk bb mb occs) (pollDialog env s).2)).trace :=
      (traceExt_sketches cfg env (joinPath base (cleanup_name n)) sk _).mem h1
    have hbs : Event.write .step (joinPath base (cleanup_name n) ++ extStp)
        ∈ (bodies_section cfg env (joinPath base (cleanup_name n)) bb mb
            (sketches_section cfg env (joinPath base (cleanup_name n)) sk
              (formats_section cfg env (joinPath base (cleanup_name n))
                (Component.mk n sk bb mb occs) (pollDialog env s).2))).1.1.trace :=
      (traceExt_bodies_section cfg env (joinPath base (cleanup_name n)) bb mb _).mem h2
    split
    · rename_i s3 snd heq
      rw [heq] at hbs
      exact hbs
    · rename_i s3 heq
      rw [heq] at hbs
      exact hbs
    · rename_i s3 heq
      rw [heq] at hbs
      dsimp only at hbs
      split
      · split
        · exact hbs
        · exact (traceExt_occs_loop cfg env base (cleanup_name n) occs s3).mem hbs
      · exact hbs

/-- Every occurrence visited by the occurrence loop contributes its own STEP
write call (when stp is enabled, overwrite is on, directory creation
succeeds, and cancellation never occurs). -/
theorem occs_loop_child_step (cfg : Config) (env : Env) (pb pc : Name)
    (occs : CompList) (s : S) (hC : NoCancel env) (hM : MkdirOk env)
    (how : cfg.overwrite_existing = true)
    (hfmt : cfg.export_formats.contains fmtStp = true) :
    ∀ sub ∈ occs.toList,
      Event.write .step (joinPath (joinPath pb pc) (cleanup_name sub.name) ++ extStp)
        ∈ (occs_loop cfg env pb pc occs s).trace := by
  cases occs with
  | nil =>
    intro sub h
    simp [CompList.toList] at h
  | cons sub0 rest =>
    intro sub hsub
    unfold occs_loop
    dsimp only
    rw [pollDialog_fst, hC s.pollCount]
    simp only [Bool.false_eq_true, if_false]
    rw [create_path_ok (hM _)]
    dsimp only
    rcases (show sub = sub0 ∨ sub ∈ rest.toList by
      simpa [CompList.toList] using hsub) with h | h
    · subst h
      exact (traceExt_occs_loop cfg env pb pc rest _).mem
        (write_component_own_step cfg env (joinPath pb pc) sub _ hC how hfmt)
    · exact occs_loop_child_step cfg env pb pc rest _ hC hM how hfmt sub h

/-- Claim C5: with stp among the enabled formats, overwrite on, directory
creation succeeding and no cancellation: a component whose immediate
occurrence count strictly exceeds the configured maximum behaves exactly as
if sub-component export were disabled (no recursion) while still issuing its
own STEP write; and a component whose count equals the maximum exactly
recurses into every occurrence (each occurrence's own STEP write call
appears in the trace). -/
theorem C5_subcomponent_ceiling (cfg : Config) (env : Env) (base : Name)
    (n : Name) (sk : List Name) (bb mb : List BodyData) (occs : CompList) (s : S)
    (hC : NoCancel env) (hM : MkdirOk env)
    (how : cfg.overwrite_existing = true)
    (hfmt : cfg.export_formats.contains fmtStp = true)
    (hsub : cfg.export_subcomponents = true) :
    (CompList.length occs > cfg.max_subcomponent_count →
      write_component cfg env base (.mk n sk bb mb occs) s
        = write_component { cfg with export_subcomponents := false } env base
            (.mk n sk bb mb occs) s) ∧
    (CompList.length occs > cfg.max_subcomponent_count →
      Event.write .step (joinPath base (cleanup_name n) ++ extStp)
        ∈ (write_component cfg env base (.mk n sk bb mb occs) s).1.trace) ∧
    (CompList.length occs = cfg.max_subcomponent_count →
      ∀ sub ∈ occs.toList,
        Event.write .step
            (joinPath (joinPath base (cleanup_name n)) (cleanup_name sub.name) ++ extStp)
          ∈ (write_component cfg env base (.mk n sk bb mb occs) s).1.trace) := by
  refine ⟨fun hgt => write_component_over_ceiling cfg env base n sk bb mb occs s hgt,
          fun _ => write_component_own_step cfg env base (.mk n sk bb mb occs) s hC how hfmt,
          fun hlen sub hmem => ?_⟩
  unfold write_component
  dsimp only
  rw [pollDialog_fst, hC s.pollCount]
  simp only [Bool.false_eq_true, if_false]
  obtain ⟨_, b3, b4⟩ := bodies_section_state cfg env (joinPath base (cleanup_name n))
    bb mb (sketches_section cfg env (joinPath base (cleanup_name n)) sk
      (formats_section cfg env (joinPath base (cleanup_name n))
        (Component.mk n sk bb mb occs) (pollDialog env s).2)) (hM _) hC
  split
  · rename_i s3 snd heq
    rw [heq] at b4
    exact absurd b4 (by simp)
  · rename_i s3 heq
    rw [heq] at b3
    exact absurd b3 (by simp)
  · rename_i s3 heq
    rw [hsub]
    simp only [if_true]
    rw [if_neg (by omega)]
    exact occs_loop_child_step cfg env base (cleanup_name n) occs s3 hC hM how hfmt
      sub hmem

theorem C5_witness :
    (NoCancel envOk ∧ MkdirOk envOk ∧ cfgMax1.overwrite_existing = true ∧
     cfgMax1.export_formats.contains fmtStp = true ∧
     cfgMax1.export_subcomponents = true ∧
     CompList.length (.cons compChild (.cons compChildB .nil))
       > cfgMax1.max_subcomponent_count ∧
     CompList.length (.cons compChild .nil) = cfgMax1.max_subcomponent_count) ∧
    (write_component cfgMax1 envOk rootO compTwoSubs (S.init [])
      = write_component { cfgMax1 with export_subcomponents := false } envOk rootO
          compTwoSubs (S.init [])) ∧
    (Event.write .step (joinPath rootO (cleanup_name ['A']) ++ extStp)
      ∈ (write_component cfgMax1 envOk rootO compTwoSubs (S.init [])).1.trace) ∧
    (Event.write .step
        (joinPath (joinPath rootO (cleanup_name ['A'])) (cleanup_name ['C']) ++ extStp)
      ∈ (write_component cfgMax1 envOk rootO compOneSub (S.init [])).1.trace) := by
  have hC : NoCancel envOk := fun k => rfl
  have hM : MkdirOk envOk := fun p => rfl
  have h2 := C5_subcomponent_ceiling cfgMax1 envOk rootO ['A'] [] [] []
    (.cons compChild (.cons compChildB .nil)) (S.init []) hC hM (by decide)
    (by decide) (by decide)
  have h1 := C5_subcomponent_ceiling cfgMax1 envOk rootO ['A'] [] [] []
    (.cons compChild .nil) (S.init []) hC hM (by decide) (by decide) (by decide)
  exact ⟨⟨hC, hM, by decide, by decide, by decide, by decide, by decide⟩,
    h2.1 (by decide), h2.2.1 (by decide),
    h1.2.2 (by decide) compChild (List.mem_singleton.mpr rfl)⟩

/-! ## Claim C8 (idempotent skip with overwrite disabled) -/

/-- Claim C8 counterexample: with overwrite disabled, a second run over the
unchanged single-file hierarchy against the same destination still performs
an artifact write call: the document archive (f3d) export is not guarded by
an existence check.  The second run performs exactly one write — the archive
— and records no issue. -/
theorem C8_counterexample :
    cfgNoOverwrite.overwrite_existing = false ∧
    runSecond.trace.countP Event.isWrite = 1 ∧
    runSecond.trace.countP
      (fun e => match e with | Event.write WriteKind.archive _ => true | _ => false) = 1 ∧
    runSecond.num_issues = 0 := by decide

theorem write_step_skip (cfg : Config) (env : Env) (p : Name) (s : S)
    (ho : cfg.overwrite_existing = false)
    (hex : pathExists s (p ++ extStp) = true) :
    write_step cfg env p s = (s, false) := by
  unfold write_step
  dsimp only
  rw [ho, hex]
  simp

theorem write_stl_skip (cfg : Config) (env : Env) (p : Name) (c : Component) (s : S)
    (ho : cfg.overwrite_existing = false)
    (hex : pathExists s (p ++ extStl) = true) :
    write_stl cfg env p c s = (s, false) := by
  unfold write_stl
  dsimp only
  rw [ho, hex]
  simp

theorem write_iges_skip (cfg : Config) (env : Env) (p : Name) (s : S)
    (ho : cfg.overwrite_existing = false)
    (hex : pathExists s (p ++ extIgs) = true) :
    write_iges cfg env p s = (s, false) := by
  unfold write_iges
  dsimp only
  rw [ho, hex]
  simp

theorem write_dxf_skip (cfg : Config) (env : Env) (p : Name) (s : S)
    (ho : cfg.overwrite_existing = false)
    (hex : pathExists s (p ++ extDxf) = true) :
    write_dxf cfg env p s = (s, false) := by
  unfold write_dxf
  dsimp only
  rw [ho, hex]
  simp

theorem write_stl_body_skip (cfg : Config) (env : Env) (p : Name) (b : BodyData)
    (s : S) (ho : cfg.overwrite_existing = false)
    (hex : pathExists s (p ++ extStl) = true) :
    write_stl_body cfg env p b s = (s, false) := by
  unfold write_stl_body
  dsimp only
  rw [ho, hex]
  simp

theorem write_screenshot_skip (cfg : Config) (env : Env) (p : Name) (s : S)
    (ho : cfg.overwrite_existing = false) (hex : pathExists s p = true) :
    write_screenshot cfg env p s = s := by
  unfold write_screenshot
  dsimp only
  rw [ho, hex]
  simp

/-- The archive export of `_export_design` is issued unconditionally: as soon
as the destination directory is available, the archive encoder is invoked on
every run, with no existence guard and regardless of `overwrite_existing`. -/
theorem design_body_archive_write (cfg : Config) (env : Env)
    (root hubName projName : Name) (file : DataFile) (s : S)
    (hmk : env.fails (.mkdirs (joinAll root
      [hubSegHead ++ cleanup_name hubName, projSegHead ++ cleanup_name projName,
       buildFolderPath file.folderChain,
       cleanup_name file.name ++ '.' :: file.fileExtension])) = false) :
    Event.write .archive (joinPath (joinAll root
        [hubSegHead ++ cleanup_name hubName, projSegHead ++ cleanup_name projName,
         buildFolderPath file.folderChain,
         cleanup_name file.name ++ '.' :: file.fileExtension])
        (cleanup_name file.name))
      ∈ (design_body cfg env root hubName projName file s).trace := by
  unfold design_body
  dsimp only
  rw [create_path_ok hmk]
  dsimp only
  rw [pathExists_addFs_self]
  simp only [Bool.not_true, Bool.false_eq_true, if_false]
  set FULL := joinAll root
    [hubSegHead ++ cleanup_name hubName, projSegHead ++ cleanup_name projName,
     buildFolderPath file.folderChain,
     cleanup_name file.name ++ '.' :: file.fileExtension] with hFULL
  have hmem : Event.write WriteKind.archive (joinPath FULL (cleanup_name file.name))
      ∈ (emit (Event.write WriteKind.archive (joinPath FULL (cleanup_name file.name)))
          (write_screenshot cfg env
            (joinPath FULL (cleanup_name file.name ++ extPng)) (addFs FULL s))).trace := by
    simp
  split
  · exact hmem
  · split
    · rename_i s5 heq
      have hx := traceExt_write_component cfg env FULL file.rootComponent
        (addFs (joinPath FULL (cleanup_name file.name))
          (emit (Event.write WriteKind.archive (joinPath FULL (cleanup_name file.name)))
            (write_screenshot cfg env
              (joinPath FULL (cleanup_name file.name ++ extPng)) (addFs FULL s))))
      rw [heq] at hx
      exact hx.mem hmem
    · rename_i s5 heq
      have hx := traceExt_write_component cfg env FULL file.rootComponent
        (addFs (joinPath FULL (cleanup_name file.name))
          (emit (Event.write WriteKind.archive (joinPath FULL (cleanup_name file.name)))
            (write_screenshot cfg env
              (joinPath FULL (cleanup_name file.name ++ extPng)) (addFs FULL s))))
      rw [heq] at hx
      exact hx.mem hmem

/-- Claim C8 (amended): with overwrite disabled, every component-level write
site (screenshot, stp, stl, igs, dxf, body stl) is guarded by an existence
check and performs no write call when its output already exists; the document
archive export, however, is issued unconditionally on every run.  A second
run over an unchanged hierarchy therefore performs exactly the archive write
calls and records zero new issues (shown concretely by `runSecond`). -/
theorem C8_overwrite_guards (cfg : Config) (env : Env) (p : Name) (c : Component)
    (b : BodyData) (s : S) (root hubName projName : Name) (file : DataFile)
    (ho : cfg.overwrite_existing = false)
    (hmk : env.fails (.mkdirs (joinAll root
      [hubSegHead ++ cleanup_name hubName, projSegHead ++ cleanup_name projName,
       buildFolderPath file.folderChain,
       cleanup_name file.name ++ '.' :: file.fileExtension])) = false) :
    (pathExists s (p ++ extStp) = true → write_step cfg env p s = (s, false)) ∧
    (pathExists s (p ++ extStl) = true → write_stl cfg env p c s = (s, false)) ∧
    (pathExists s (p ++ extIgs) = true → write_iges cfg env p s = (s, false)) ∧
    (pathExists s (p ++ extDxf) = true → write_dxf cfg env p s = (s, false)) ∧
    (pathExists s (p ++ extStl) = true → write_stl_body cfg env p b s = (s, false)) ∧
    (pathExists s p = true → write_screenshot cfg env p s = s) ∧
    (Event.write .archive (joinPath (joinAll root
        [hubSegHead ++ cleanup_name hubName, projSegHead ++ cleanup_name projName,
         buildFolderPath file.folderChain,
         cleanup_name file.name ++ '.' :: file.fileExtension])
        (cleanup_name file.name))
      ∈ (design_body cfg env root hubName projName file s).trace) ∧
    runSecond.trace.countP Event.isWrite = 1 ∧
    runSecond.num_issues = 0 :=
  ⟨fun hex => write_step_skip cfg env p s ho hex,
   fun hex => write_stl_skip cfg env p c s ho hex,
   fun hex => write_iges_skip cfg env p s ho hex,
   fun hex => write_dxf_skip cfg env p s ho hex,
   fun hex => write_stl_body_skip cfg env p b s ho hex,
   fun hex => write_screenshot_skip cfg env p s ho hex,
   design_body_archive_write cfg env root hubName projName file s hmk,
   by decide, by decide⟩

theorem C8_witness :
    (cfgNoOverwrite.overwrite_existing = false ∧
     envOk.fails (.mkdirs (joinAll rootO
       [hubSegHead ++ cleanup_name ['H'], projSegHead ++ cleanup_name ['P'],
        buildFolderPath fileA.folderChain,
        cleanup_name fileA.name ++ '.' :: fileA.fileExtension])) = false ∧
     pathExists (S.init [joinPath rootO ['x'] ++ extStp]) (joinPath rootO ['x'] ++ extStp)
       = true) ∧
    write_step cfgNoOverwrite envOk (joinPath rootO ['x'])
        (S.init [joinPath rootO ['x'] ++ extStp])
      = (S.init [joinPath rootO ['x'] ++ extStp], false) := by
  have h := C8_overwrite_guards cfgNoOverwrite envOk (joinPath rootO ['x']) compA
    bodyNE (S.init [joinPath rootO ['x'] ++ extStp]) rootO ['H'] ['P'] fileA
    (by decide) (by decide)
  exact ⟨⟨by decide, by decide, by decide⟩, h.1 (by decide)⟩

/-! ## Claim C2 (no write after observed cancellation): trace lemmas -/

theorem hasCancel_cons (e : Event) (t : List Event) :
    hasCancel (e :: t) = (e.isCancel || hasCancel t) := by
  simp [hasCancel]

theorem hasCancel_append (t1 t2 : List Event) :
    hasCancel (t1 ++ t2) = (hasCancel t1 || hasCancel t2) := by
  simp [hasCancel]

theorem nwacAux_cons (b : Bool) (e : Event) (t : List Event) :
    nwacAux b (e :: t) =
      if (e.isWrite && b) = true then false else nwacAux (b || e.isCancel) t := rfl

theorem nwacAux_append (b : Bool) (t1 t2 : List Event) :
    nwacAux b (t1 ++ t2) = (nwacAux b t1 && nwacAux (b || hasCancel t1) t2) := by
  induction t1 generalizing b with
  | nil => simp [nwacAux, hasCancel]
  | cons e t ih =>
    simp only [List.cons_append, nwacAux_cons]
    by_cases hw : (e.isWrite && b) = true
    · rw [if_pos hw, if_pos hw]
      simp
    · rw [if_neg hw, if_neg hw, ih, hasCancel_cons, ← Bool.or_assoc]

theorem nwac_append_cancel (t : List Event) :
    noWriteAfterCancel (t ++ [Event.cancelObserved]) = noWriteAfterCancel t := by
  unfold noWriteAfterCancel
  rw [nwacAux_append]
  simp [nwacAux, Event.isWrite]

theorem nwac_append_any (t : List Event) (e : Event) (h : hasCancel t = false) :
    noWriteAfterCancel (t ++ [e]) = noWriteAfterCancel t := by
  unfold noWriteAfterCancel
  rw [nwacAux_append, h]
  simp [nwacAux]

theorem nwac_append_nonwrite (t : List Event) (e : Event) (h : e.isWrite = false) :
    noWriteAfterCancel (t ++ [e]) = noWriteAfterCancel t := by
  unfold noWriteAfterCancel
  rw [nwacAux_append]
  simp [nwacAux, h]

theorem Inv_emit_write {env : Env} {s : S} (h : Inv env s)
    (h0 : hasCancel s.trace = false) (k : WriteKind) (p : Name) :
    Inv env (emit (Event.write k p) s) ∧
    hasCancel (emit (Event.write k p) s).trace = false := by
  obtain ⟨h1, h2, h3⟩ := h
  have hc : hasCancel (s.trace ++ [Event.write k p]) = false := by
    rw [hasCancel_append, h0]
    simp [hasCancel, Event.isCancel]
  refine ⟨⟨?_, ?_, ?_⟩, hc⟩
  · rw [trace_emit, nwac_append_any _ _ h0]
    exact h1
  · intro hx
    rw [trace_emit, hc] at hx
    exact absurd hx (by decide)
  · intro hwc
    exact absurd (h3 hwc) (by rw [h0]; decide)

theorem Inv_emit_nonwrite {env : Env} {s : S} (h : Inv env s) (e : Event)
    (hw : e.isWrite = false) (hcnot : e.isCancel = false) :
    Inv env (emit e s) ∧ hasCancel (emit e s).trace = hasCancel s.trace := by
  obtain ⟨h1, h2, h3⟩ := h
  have hc : hasCancel (s.trace ++ [e]) = hasCancel s.trace := by
    rw [hasCancel_append]
    simp [hasCancel, hcnot]
  refine ⟨⟨?_, ?_, ?_⟩, hc⟩
  · rw [trace_emit, nwac_append_nonwrite _ _ hw]
    exact h1
  · intro hx
    rw [trace_emit, hc] at hx
    exact h2 hx
  · intro hwc
    rw [trace_emit, hc]
    exact h3 hwc

theorem Inv_markCancelled_obs {env : Env} {s : S} (h : Inv env s)
    (hobs : env.cancel s.pollCount = true) : Inv env (markCancelled s) := by
  obtain ⟨h1, h2, h3⟩ := h
  refine ⟨?_, ?_, ?_⟩
  · rw [show (markCancelled s).trace = s.trace ++ [Event.cancelObserved] from rfl,
      nwac_append_cancel]
    exact h1
  · intro _
    exact hobs
  · intro _
    rw [show (markCancelled s).trace = s.trace ++ [Event.cancelObserved] from rfl,
      hasCancel_append]
    simp [hasCancel, Event.isCancel]

theorem poll_false_inv {env : Env} {s : S} (h : Inv env s)
    (hp : env.cancel s.pollCount = false) :
    Inv env { s with pollCount := s.pollCount + 1 } ∧
    hasCancel s.trace = false ∧ s.was_cancelled = false := by
  obtain ⟨h1, h2, h3⟩ := h
  have hc : hasCancel s.trace = false := by
    cases hh : hasCancel s.trace
    · rfl
    · rw [h2 hh] at hp
      exact absurd hp (by decide)
  have hwc : s.was_cancelled = false := by
    cases hx : s.was_cancelled
    · rfl
    · rw [h3 hx] at hc
      exact absurd hc (by decide)
  refine ⟨⟨h1, ?_, ?_⟩, hc, hwc⟩
  · intro hx
    rw [hc] at hx
    exact absurd hx (by decide)
  · intro hx
    exact h3 hx

theorem poll_true_inv {env : Env} {s : S} (hM : MonoCancel env) (h : Inv env s)
    (hp : env.cancel s.pollCount = true) :
    Inv env { s with pollCount := s.pollCount + 1 } := by
  obtain ⟨h1, h2, h3⟩ := h
  exact ⟨h1, fun _ => hM s.pollCount (s.pollCount + 1) (Nat.le_succ _) hp, h3⟩

theorem write_step_inv (cfg : Config) {env : Env} (p : Name) {s : S} (h : Inv env s)
    (h0 : hasCancel s.trace = false) :
    Inv env (write_step cfg env p s).1 ∧
    hasCancel (write_step cfg env p s).1.trace = false := by
  unfold write_step
  dsimp only
  split
  · exact ⟨h, h0⟩
  · split
    · exact Inv_emit_write h h0 _ _
    · exact Inv_emit_write h h0 _ _

theorem write_stl_inv (cfg : Config) {env : Env} (p : Name) (c : Component) {s : S}
    (h : Inv env s) (h0 : hasCancel s.trace = false) :
    Inv env (write_stl cfg env p c s).1 ∧
    hasCancel (write_stl cfg env p c s).1.trace = false := by
  unfold write_stl
  dsimp only
  split
  · exact ⟨h, h0⟩
  · split
    · split
      · exact Inv_emit_write h h0 _ _
      · exact Inv_emit_write h h0 _ _
    · exact Inv_emit_write h h0 _ _

theorem write_iges_inv (cfg : Config) {env : Env} (p : Name) {s : S} (h : Inv env s)
    (h0 : hasCancel s.trace = false) :
    Inv env (write_iges cfg env p s).1 ∧
    hasCancel (write_iges cfg env p s).1.trace = false := by
  unfold write_iges
  dsimp only
  split
  · exact ⟨h, h0⟩
  · split
    · exact Inv_emit_write h h0 _ _
    · exact Inv_emit_write h h0 _ _

theorem write_dxf_inv (cfg : Config) {env : Env} (p : Name) {s : S} (h : Inv env s)
    (h0 : hasCancel s.trace = false) :
    Inv env (write_dxf cfg env p s).1 ∧
    hasCancel (write_dxf cfg env p s).1.trace = false := by
  unfold write_dxf
  dsimp only
  split
  · exact ⟨h, h0⟩
  · split
    · exact Inv_emit_write h h0 _ _
    · exact Inv_emit_write h h0 _ _

theorem write_stl_body_inv (cfg : Config) {env : Env} (p : Name) (b : BodyData)
    {s : S} (h : Inv env s) (h0 : hasCancel s.trace = false) :
    Inv env (write_stl_body cfg env p b s).1 ∧
    hasCancel (write_stl_body cfg env p b s).1.trace = false := by
  unfold write_stl_body
  dsimp only
  split
  · exact ⟨h, h0⟩
  · split
    · exact Inv_emit_write h h0 _ _
    · exact Inv_emit_write h h0 _ _

theorem write_screenshot_inv (cfg : Config) {env : Env} (p : Name) {s : S}
    (h : Inv env s) (h0 : hasCancel s.trace = false) :
    Inv env (write_screenshot cfg env p s) ∧
    hasCancel (write_screenshot cfg env p s).trace = false := by
  unfold write_screenshot
  dsimp only
  split
  · split
    · split
      · exact Inv_emit_write h h0 _ _
      · exact Inv_emit_write h h0 _ _
    · exact ⟨h, h0⟩
  · exact ⟨h, h0⟩

theorem create_path_inv {env : Env} (p : Name) {s : S} (h : Inv env s)
    (h0 : hasCancel s.trace = false) :
    Inv env (create_path env p s).1 ∧
    hasCancel (create_path env p s).1.trace = false := by
  unfold create_path
  split
  · exact ⟨h, h0⟩
  · exact ⟨h, h0⟩

theorem formats_section_inv (cfg : Config) {env : Env} (op : Name) (c : Component)
    {s : S} (h : Inv env s) (h0 : hasCancel s.trace = false) :
    Inv env (formats_section cfg env op c s) ∧
    hasCancel (formats_section cfg env op c s).trace = false := by
  unfold formats_section
  dsimp only
  split_ifs
  all_goals
    first
      | exact ⟨h, h0⟩
      | (obtain ⟨i1, c1⟩ := write_step_inv cfg op h h0
         first
           | exact ⟨i1, c1⟩
           | (obtain ⟨i2, c2⟩ := write_stl_inv cfg op c i1 c1
              first
                | exact ⟨i2, c2⟩
                | exact write_iges_inv cfg op i2 c2)
           | exact write_iges_inv cfg op i1 c1)
      | (obtain ⟨i2, c2⟩ := write_stl_inv cfg op c h h0
         first
           | exact ⟨i2, c2⟩
           | exact write_iges_inv cfg op i2 c2)
      | exact write_iges_inv cfg op h h0

theorem sketches_fold_inv (cfg : Config) {env : Env} (op : Name) (sks : List Name)
    {s : S} (h : Inv env s) (h0 : hasCancel s.trace = false) :
    Inv env (sks.foldl (fun acc skn => (write_dxf cfg env (joinPath op skn) acc).1) s) ∧
    hasCancel (sks.foldl (fun acc skn =>
      (write_dxf cfg env (joinPath op skn) acc).1) s).trace = false := by
  induction sks generalizing s with
  | nil => exact ⟨h, h0⟩
  | cons a t ih =>
    rw [List.foldl_cons]
    obtain ⟨i1, c1⟩ := write_dxf_inv cfg (joinPath op a) h h0
    exact ih i1 c1

theorem sketches_section_inv (cfg : Config) {env : Env} (op : Name) (sks : List Name)
    {s : S} (h : Inv env s) (h0 : hasCancel s.trace = false) :
    Inv env (sketches_section cfg env op sks s) ∧
    hasCancel (sketches_section cfg env op sks s).trace = false := by
  unfold sketches_section
  split
  · exact sketches_fold_inv cfg op sks h h0
  · exact ⟨h, h0⟩

theorem bodies_loop_inv (cfg : Config) {env : Env} (op : Name) (bs : List BodyData)
    {s : S} (hM : MonoCancel env) (h : Inv env s) (h0 : hasCancel s.trace = false) :
    Inv env (bodies_loop cfg env op bs s).1 ∧
    ((bodies_loop cfg env op bs s).2 = false →
      hasCancel (bodies_loop cfg env op bs s).1.trace = false) := by
  induction bs generalizing s with
  | nil => exact ⟨h, fun _ => h0⟩
  | cons b t ih =>
    unfold bodies_loop
    dsimp only
    split
    · rename_i hp
      rw [pollDialog_fst] at hp
      exact ⟨Inv_markCancelled_obs (poll_true_inv hM h hp)
          (hM s.pollCount (s.pollCount + 1) (Nat.le_succ _) hp),
        fun hx => by simp at hx⟩
    · rename_i hp
      rw [pollDialog_fst] at hp
      have hpf : env.cancel s.pollCount = false := by
        cases hq : env.cancel s.pollCount
        · rfl
        · exact absurd hq hp
      obtain ⟨hI, hc, _⟩ := poll_false_inv h hpf
      obtain ⟨i1, c1⟩ := write_stl_body_inv cfg (joinPath op b.name) b hI hc
      exact ih i1 c1

theorem bodies_section_inv (cfg : Config) {env : Env} (op : Name)
    (bb mb : List BodyData) {s : S} (hM : MonoCancel env) (h : Inv env s)
    (h0 : hasCancel s.trace = false) :
    Inv env (bodies_section cfg env op bb mb s).1.1 ∧
    ((bodies_section cfg env op bb mb s).1.2 = false →
      hasCancel (bodies_section cfg env op bb mb s).1.1.trace = false) := by
  unfold bodies_section
  split
  · split
    · split
      · rename_i s1 heq
        have hcp := create_path_inv op h h0
        rw [heq] at hcp
        exact ⟨hcp.1, fun _ => hcp.2⟩
      · rename_i s1 heq
        have hcp := create_path_inv op h h0
        rw [heq] at hcp
        obtain ⟨hI1, hc1⟩ := hcp
        have hbl := bodies_loop_inv cfg op bb hM hI1 hc1
        split
        · rename_i s2 heq2
          rw [heq2] at hbl
          exact ⟨hbl.1, fun hx => by simp at hx⟩
        · rename_i s2 heq2
          rw [heq2] at hbl
          have hc2 := hbl.2 rfl
          split
          · have hbl2 := bodies_loop_inv cfg op mb hM hbl.1 hc2
            exact ⟨hbl2.1, hbl2.2⟩
          · exact ⟨hbl.1, fun _ => hc2⟩
    · split
      · have hbl := bodies_loop_inv cfg op mb hM h h0
        exact ⟨hbl.1, hbl.2⟩
      · exact ⟨h, fun _ => h0⟩
  · exact ⟨h, fun _ => h0⟩

mutual
theorem write_component_inv (cfg : Config) (env : Env) (base : Name) (c : Component)
    (s : S) (hM : MonoCancel env) (h : Inv env s) :
    Inv env (write_component cfg env base c s).1 := by
  cases c with
  | mk n sk bb mb occs =>
    unfold write_component
    dsimp only
    split
    · rename_i hp
      rw [pollDialog_fst] at hp
      exact Inv_markCancelled_obs (poll_true_inv hM h hp)
        (hM s.pollCount (s.pollCount + 1) (Nat.le_succ _) hp)
    · rename_i hp
      rw [pollDialog_fst] at hp
      have hpf : env.cancel s.pollCount = false := by
        cases hq : env.cancel s.pollCount
        · rfl
        · exact absurd hq hp
      obtain ⟨hI, hc, _⟩ := poll_false_inv h hpf
      have hIp : Inv env (pollDialog env s).2 := hI
      have hcp2 : hasCancel (pollDialog env s).2.trace = false := hc
      obtain ⟨f1, fc⟩ := formats_section_inv cfg (joinPath base (cleanup_name n))
        (Component.mk n sk bb mb occs) hIp hcp2
      obtain ⟨k1, kc⟩ := sketches_section_inv cfg (joinPath base (cleanup_name n))
        sk f1 fc
      have hbs := bodies_section_inv cfg (joinPath base (cleanup_name n)) bb mb
        hM k1 kc
      split
      · rename_i s3 snd heq
        rw [heq] at hbs
        exact hbs.1
      · rename_i s3 heq
        rw [heq] at hbs
        exact hbs.1
      · rename_i s3 heq
        rw [heq] at hbs
        split
        · split
          · exact hbs.1
          · exact occs_loop_inv cfg env occs base (cleanup_name n) s3 hM hbs.1
        · exact hbs.1
termination_by sizeOf c

theorem occs_loop_inv (cfg : Config) (env : Env) (occs : CompList) (pb pc : Name)
    (s : S) (hM : MonoCancel env) (h : Inv env s) :
    Inv env (occs_loop cfg env pb pc occs s) := by
  cases occs with
  | nil => exact h
  | cons sub rest =>
    unfold occs_loop
    dsimp only
    split
    · rename_i hp
      rw [pollDialog_fst] at hp
      exact Inv_markCancelled_obs (poll_true_inv hM h hp)
        (hM s.pollCount (s.pollCount + 1) (Nat.le_succ _) hp)
    · rename_i hp
      rw [pollDialog_fst] at hp
      have hpf : env.cancel s.pollCount = false := by
        cases hq : env.cancel s.pollCount
        · rfl
        · exact absurd hq hp
      obtain ⟨hI, hc, _⟩ := poll_false_inv h hpf
      have hIp : Inv env (pollDialog env s).2 := hI
      have hcp2 : hasCancel (pollDialog env s).2.trace = false := hc
      split
      · rename_i sa heq
        have hcp := create_path_inv (joinPath pb pc) hIp hcp2
        rw [heq] at hcp
        exact occs_loop_inv cfg env rest pb pc sa hM hcp.1
      · rename_i sa heq
        have hcp := create_path_inv (joinPath pb pc) hIp hcp2
        rw [heq] at hcp
        exact occs_loop_inv cfg env rest pb pc _ hM
          (write_component_inv cfg env (joinPath pb pc) sub sa hM hcp.1)
termination_by sizeOf occs
end

theorem close_attempt_inv {env : Env} (n : Name) {s : S} (h : Inv env s) :
    Inv env (close_attempt env n s) := by
  unfold close_attempt
  dsimp only
  have he := Inv_emit_nonwrite h (Event.closeDoc n) rfl rfl
  split
  · exact he.1
  · exact he.1

theorem design_body_inv (cfg : Config) {env : Env} (root hubName projName : Name)
    (file : DataFile) {s : S} (hM : MonoCancel env) (h : Inv env s)
    (h0 : hasCancel s.trace = false) :
    Inv env (design_body cfg env root hubName projName file s) := by
  unfold design_body
  dsimp only
  set FULL := joinAll root
    [hubSegHead ++ cleanup_name hubName, projSegHead ++ cleanup_name projName,
     buildFolderPath file.folderChain,
     cleanup_name file.name ++ '.' :: file.fileExtension] with hF
  split
  · rename_i s1 heq
    have hcp := create_path_inv FULL h h0
    rw [heq] at hcp
    exact hcp.1
  · rename_i s1 heq
    have hcp := create_path_inv FULL h h0
    rw [heq] at hcp
    obtain ⟨hI1, hc1⟩ := hcp
    split
    · exact hI1
    · obtain ⟨hI2, hc2⟩ := write_screenshot_inv cfg
        (joinPath FULL (cleanup_name file.name ++ extPng)) hI1 hc1
      obtain ⟨hI3, hc3⟩ := Inv_emit_write hI2 hc2 WriteKind.archive
        (joinPath FULL (cleanup_name file.name))
      split
      · exact hI3
      · have hw := write_component_inv cfg env FULL file.rootComponent
          (addFs (joinPath FULL (cleanup_name file.name))
            (emit (Event.write WriteKind.archive (joinPath FULL (cleanup_name file.name)))
              (write_screenshot cfg env
                (joinPath FULL (cleanup_name file.name ++ extPng)) s1))) hM hI3
        split
        · rename_i s5 heq2
          rw [heq2] at hw
          exact hw
        · rename_i s5 heq2
          rw [heq2] at hw
          exact hw

theorem export_design_inv (cfg : Config) {env : Env} (root hubName projName : Name)
    (file : DataFile) {s : S} (hM : MonoCancel env) (h : Inv env s)
    (h0 : hasCancel s.trace = false) :
    Inv env (export_design cfg env root hubName projName file s) := by
  unfold export_design
  split
  · exact h
  · split
    · exact h
    · obtain ⟨hI1, hc1eq⟩ := Inv_emit_nonwrite h (Event.openDoc file.name) rfl rfl
      have hc1 : hasCancel (emit (Event.openDoc file.name) s).trace = false := by
        rw [hc1eq]
        exact h0
      split
      · exact close_attempt_inv file.name hI1
      · exact close_attempt_inv file.name
          (design_body_inv cfg root hubName projName file hM hI1 hc1)

theorem files_loop_inv (cfg : Config) {env : Env} (root hubName projName : Name)
    (files : List DataFile) {s : S} (hM : MonoCancel env) (h : Inv env s) :
    Inv env (files_loop cfg env root hubName projName files s).1 := by
  induction files generalizing s with
  | nil => exact h
  | cons f rest ih =>
    unfold files_loop
    dsimp only
    split
    · rename_i hwc
      exact Inv_markCancelled_obs h (h.2.1 (h.2.2 hwc))
    · split
      · rename_i hp
        rw [pollDialog_fst] at hp
        exact Inv_markCancelled_obs (poll_true_inv hM h hp)
          (hM s.pollCount (s.pollCount + 1) (Nat.le_succ _) hp)
      · rename_i hp
        rw [pollDialog_fst] at hp
        have hpf : env.cancel s.pollCount = false := by
          cases hq : env.cancel s.pollCount
          · rfl
          · exact absurd hq hp
        obtain ⟨hI, hc, _⟩ := poll_false_inv h hpf
        exact ih (export_design_inv cfg root hubName projName f hM hI hc)

theorem projects_loop_inv (cfg : Config) {env : Env} (root hubName : Name)
    (projs : List Project) {s : S} (hM : MonoCancel env) (h : Inv env s) :
    Inv env (projects_loop cfg env root hubName projs s).1 := by
  induction projs generalizing s with
  | nil => exact h
  | cons p rest ih =>
    unfold projects_loop
    dsimp only
    split
    · rename_i hwc
      exact Inv_markCancelled_obs h (h.2.1 (h.2.2 hwc))
    · split
      · rename_i hp
        rw [pollDialog_fst] at hp
        exact Inv_markCancelled_obs (poll_true_inv hM h hp)
          (hM s.pollCount (s.pollCount + 1) (Nat.le_succ _) hp)
      · rename_i hp
        rw [pollDialog_fst] at hp
        have hpf : env.cancel s.pollCount = false := by
          cases hq : env.cancel s.pollCount
          · rfl
          · exact absurd hq hp
        obtain ⟨hI, hc, _⟩ := poll_false_inv h hpf
        have hIp : Inv env (pollDialog env s).2 := hI
        split
        · have hfl := files_loop_inv cfg root hubName p.name
            (getFilesFor p.rootFolder) hM hIp
          split
          · rename_i s2 heq
            rw [heq] at hfl
            exact hfl
          · rename_i s2 heq
            rw [heq] at hfl
            exact ih hfl
        · exact ih hIp

theorem hubs_loop_inv (cfg : Config) {env : Env} (root active : Name)
    (hubs : List Hub) {s : S} (hM : MonoCancel env) (h : Inv env s) :
    Inv env (hubs_loop cfg env root active hubs s) := by
  induction hubs generalizing s with
  | nil => exact h
  | cons hh rest ih =>
    unfold hubs_loop
    split
    · have hpl := projects_loop_inv cfg root hh.name hh.dataProjects hM h
      split
      · rename_i s1 heq
        rw [heq] at hpl
        exact hpl
      · rename_i s1 heq
        rw [heq] at hpl
        exact ih hpl
    · exact ih h

/-- Claim C2: once cancellation is observed at any polling point, no further
artifact write call occurs for the remainder of the run.  The cancellation
flag is monotone (once set, every later read of the dialog reports it). -/
theorem C2_no_write_after_cancel (cfg : Config) (env : Env) (root : Name)
    (d : AppData) (hM : MonoCancel env) :
    noWriteAfterCancel (export_data cfg env root d (S.init [])).trace = true := by
  have hInv : Inv env (S.init []) :=
    ⟨rfl, fun hx => absurd hx (by decide), fun hx => absurd hx (by decide)⟩
  exact (hubs_loop_inv cfg root d.activeHubName d.hubs hM hInv).1

theorem C2_witness :
    MonoCancel envCancelAlways ∧
    noWriteAfterCancel
      (export_data cfgAll envCancelAlways rootO hierA (S.init [])).trace = true := by
  have hM : MonoCancel envCancelAlways := fun i j _ _ => rfl
  exact ⟨hM, C2_no_write_after_cancel cfgAll envCancelAlways rootO hierA hM⟩

end HubExporter
